import Mathlib

/-!
# User directory service: store, cache and orchestration

A shallow embedding of the Go sources under `internal/user` and
`internal/session`.  Stateful code is written in explicit state-passing
style.  A Go result pair `(*T, error)` is a pair of options (`none` is
`nil`), so that every combination an interface implementation may return
is represented; dereferencing a `nil` pointer is the outcome `panic`.

Layers, leaves first:

* error values, identifiers and the records `models.User`, `models.Session`;
* the external collaborators: a relational table driven by the statements
  of `sql_queries.go`, and a key-value server with expirations;
* the repositories `userRepo` (pg.go), `userRedisRepo` (redis.go) and
  `SessionRepo` (session/repository/redis.go);
* the interfaces `UserRepository` / `RedisRepository` and the orchestrator
  `userUC` (usecase.go), which is written against the interfaces only;
* the session use case and the handlers of `delivery/grpc`.
-/

set_option autoImplicit false

/-! ## Errors -/

/-- Error values that occur in the sources.  `ErrNoRows` is `sql.ErrNoRows`,
`RedisNil` is `redis.Nil`, `ErrNotFound`, `ErrEmailExists`, `ErrNoCtxMetaData` and
`ErrInvalidSessionId` are the sentinels of `pkg/grpc_errors`, `ErrMismatchedHashAndPassword` is the bcrypt sentinel,
`Lib` is any other error raised by a library (driver, transport, decoder) and
`Wrap` is `errors.Wrap` / `errors.WithMessage`. -/
inductive Err where
  | ErrNoRows
  | RedisNil
  | ErrNotFound
  | ErrEmailExists
  | ErrMismatchedHashAndPassword
  | ErrNoCtxMetaData
  | ErrInvalidSessionId
  | Lib (msg : String)
  | Wrap (cause : Err) (msg : String)
  deriving DecidableEq, Repr, Inhabited

/-- The test `errors.Is(e, target)`: `target` occurs on the wrap chain of `e`. -/
def Err.Is : Err → Err → Bool
  | .Wrap c m, target => decide (Err.Wrap c m = target) || Err.Is c target
  | e, target => decide (e = target)

/-! ## Identifiers and strings -/

/-- A `uuid.UUID`, identified with its canonical text form. -/
structure UUID where
  canonical : String
  deriving DecidableEq, Repr, Inhabited

/-- The method `uuid.UUID.String`. -/
def UUID.String (id : UUID) : String := id.canonical

/-- The class `unicode.IsSpace` used by `strings.TrimSpace`. -/
def isSpace (c : Char) : Bool :=
  c = ' ' || c = '\t' || c = '\n' || c = '\r' || c.toNat = 0x0B || c.toNat = 0x0C ||
  c.toNat = 0x85 || c.toNat = 0xA0 || c.toNat = 0x1680 ||
  (0x2000 ≤ c.toNat && c.toNat ≤ 0x200A) || c.toNat = 0x2028 || c.toNat = 0x2029 ||
  c.toNat = 0x202F || c.toNat = 0x205F || c.toNat = 0x3000

/-- The function `strings.TrimSpace`: drops leading and trailing white space. -/
def TrimSpace (s : String) : String :=
  String.mk ((((s.data.dropWhile isSpace).reverse).dropWhile isSpace).reverse)

/-- The function `strings.ToLower`, on the ASCII letters (other code points are
left as they are). -/
def ToLower (s : String) : String :=
  String.mk (s.data.map Char.toLower)

/-- The call `fmt.Sprintf("%s: %s", a, b)`. -/
def Sprintf (a b : String) : String := a ++ ": " ++ b

/-! ## The user record -/

/-- The record `models.User`, with the fields the sources read and write.
Pointer fields are options; times are seconds. -/
structure User where
  UserID : UUID
  FirstName : String
  LastName : String
  Email : String
  Password : String
  Role : Option String
  About : Option String
  Avatar : Option String
  PhoneNumber : Option String
  Address : Option String
  City : Option String
  Country : Option String
  Gender : Option String
  Postcode : Option Int
  Birthday : Option Nat
  CreatedAt : Nat
  UpdatedAt : Nat
  LoginDate : Nat
  deriving DecidableEq, Repr, Inhabited

/-- Modelled from the spec: the method `models.User.SanitizePassword`
(internal/models is not among the sources).  A sanitized record is "a user
value with the credential field cleared". -/
def User.SanitizePassword (u : User) : User := { u with Password := "" }

/-- The record `models.Session`, with the two fields the sources read and
write: the token and the owning user's identifier. -/
structure Session where
  SessionID : String
  UserID : UUID
  deriving DecidableEq, Repr, Inhabited

/-! ## Pagination (pkg/utils, internal/models) -/

/-- The struct `utils.PaginationQuery`, with the fields the handlers set. -/
structure PaginationQuery where
  Size : Int
  Page : Int
  OrderBy : String
  deriving DecidableEq, Repr, Inhabited

/-- Modelled from the spec: the method `PaginationQuery.GetSize` (pkg/utils is
not among the sources): the page size of the query. -/
def PaginationQuery.GetSize (q : PaginationQuery) : Int := q.Size

/-- Modelled from the spec: the method `PaginationQuery.GetPage`: the page
number of the query. -/
def PaginationQuery.GetPage (q : PaginationQuery) : Int := q.Page

/-- Modelled from the spec: the method `PaginationQuery.GetLimit`: the bound of
the "bounded/offset query", the page size. -/
def PaginationQuery.GetLimit (q : PaginationQuery) : Int := q.Size

/-- Modelled from the spec: the method `PaginationQuery.GetOrderBy`. -/
def PaginationQuery.GetOrderBy (q : PaginationQuery) : String := q.OrderBy

/-- Modelled from the spec: the method `PaginationQuery.GetOffset`,
`offset = (page-1) * pageSize`. -/
def PaginationQuery.GetOffset (q : PaginationQuery) : Int := (q.Page - 1) * q.Size

/-- Modelled from the spec: the function `utils.GetTotalPages`,
`totalPages = ceil(totalCount / pageSize)`. -/
def GetTotalPages (totalCount pageSize : Int) : Int :=
  ⌈(totalCount : ℚ) / (pageSize : ℚ)⌉

/-- Modelled from the spec: the function `utils.GetHasMore`,
`hasMore = page * pageSize < totalCount`. -/
def GetHasMore (currentPage totalCount pageSize : Int) : Bool :=
  decide (currentPage * pageSize < totalCount)

/-- The envelope `models.UsersList`, with the fields the sources set.  The
slice `Users` is an option: `none` is the `nil` slice, `some []` an empty one. -/
structure UsersList where
  TotalCount : Int
  TotalPages : Int
  Page : Int
  Size : Int
  HasMore : Bool
  Users : Option (List User)
  deriving DecidableEq, Repr, Inhabited

/-- A listing statement of `sql_queries.go` together with its arguments. -/
inductive Query where
  | getTotalCount (name : String)
  | findUsers (name : String) (offset size : Int)
  | getTotal
  | getUsers (orderBy : String) (offset limit : Int)
  deriving DecidableEq, Repr

/-! ## Outcomes, traces and interfaces -/

/-- How a call ends: it returns a value, or the goroutine panics. -/
inductive Outcome (α : Type) where
  | ret (v : α)
  | panic
  deriving DecidableEq, Repr

/-- A Go result pair `(*models.User, error)`. -/
abbrev UserResult := Option User × Option Err

/-- One entry of the trace: a method invoked on an interface (a repository, a
use case, the database handle), with its arguments, or a line written to the
error log. -/
inductive Call where
  | FindByEmail (email : String)
  | Register (user : User)
  | Update (user : User)
  | UpdateRole (user : User)
  | Delete (userID : UUID)
  | GetByID (userID : UUID)
  | GetByIDCtx (key : String)
  | SetUserCtx (key : String) (seconds : Int) (user : Option User)
  | DeleteUserCtx (key : String)
  | Errorf (format : String) (err : Err)
  | Sql (q : Query)
  | Login (email password : String)
  | CreateSession (sess : Session) (expire : Int)
  | ErrorfText (format : String) (arg : String)
  deriving DecidableEq, Repr

/-- The state of the collaborators together with the trace of what the
orchestrator asked of them. -/
structure Sys (σ : Type) where
  st : σ
  log : List Call

/-- The interface `user.UserRepository` (pg_repository.go), over a state `σ`. -/
structure UserRepository (σ : Type) where
  Register : User → σ → UserResult × σ
  Update : User → σ → UserResult × σ
  Delete : UUID → σ → Option Err × σ
  GetByID : UUID → σ → UserResult × σ
  FindByEmail : String → σ → UserResult × σ
  UpdateRole : User → σ → UserResult × σ

/-- The interface `user.RedisRepository`, as redis.go implements it. -/
structure RedisRepository (σ : Type) where
  GetByIDCtx : String → σ → UserResult × σ
  SetUserCtx : String → Int → Option User → σ → Option Err × σ
  DeleteUserCtx : String → σ → Option Err × σ

/-- Invoking an interface method: the method runs on the collaborators' state
and the call is appended to the trace. -/
def invoke {σ ρ : Type} (c : Call) (op : σ → ρ × σ) (w : Sys σ) : ρ × Sys σ :=
  ((op w.st).1, { st := (op w.st).2, log := w.log ++ [c] })

/-- The call `u.logger.Errorf(format, err)`. -/
def Errorf {σ : Type} (format : String) (err : Err) (w : Sys σ) : Sys σ :=
  { w with log := w.log ++ [Call.Errorf format err] }

/-- The pattern `if err != nil { u.logger.Errorf(format, err) }`. -/
def logIfErr {σ : Type} (format : String) (err : Option Err) (w : Sys σ) : Sys σ :=
  match err with
  | some e => Errorf format e w
  | none => w

/-- The lines `if err != nil { u.logger.Errorf(format, err) }` adds to the log. -/
def errLines (format : String) (err : Option Err) : List Call :=
  match err with
  | some e => [.Errorf format e]
  | none => []

/-- The calls a run has added to the trace: the trace after the run without
the trace before it. -/
def newCalls {σ : Type} (before after : Sys σ) : List Call :=
  after.log.drop before.log.length

/-! ## The orchestrator (usecase.go) -/

/-- The constant `basePrefix` of usecase.go. -/
def userUC.basePrefix : String := "api-user:"

/-- The constant `userByIdCacheDuration`. -/
def userByIdCacheDuration : Int := 3600

/-- The struct `userUC`: the two repositories it is constructed with. -/
structure userUC (σ : Type) where
  userRepo : UserRepository σ
  redisRepo : RedisRepository σ

/-- The method `userUC.generateUserKey`. -/
def userUC.generateUserKey (userID : String) : String :=
  Sprintf userUC.basePrefix userID

/-- The method `userUC.Register`. -/
def userUC.Register {σ : Type} (u : userUC σ) (user : User) (w : Sys σ) :
    Outcome UserResult × Sys σ :=
  let r1 := invoke (.FindByEmail user.Email) (u.userRepo.FindByEmail user.Email) w
  if r1.1.1.isSome || r1.1.2.isNone then
    (.ret (none, some .ErrEmailExists), r1.2)
  else
    let r2 := invoke (.Register user) (u.userRepo.Register user) r1.2
    match r2.1.2 with
    | some err => (.ret (none, some err), r2.2)
    | none =>
      match r2.1.1 with
      | none => (.panic, r2.2)
      | some createdUser => (.ret (some createdUser.SanitizePassword, none), r2.2)

/-- The method `userUC.Update`. -/
def userUC.Update {σ : Type} (u : userUC σ) (user : User) (w : Sys σ) :
    Outcome UserResult × Sys σ :=
  let user := { user with Email := ToLower (TrimSpace user.Email) }
  let user := { user with Password := TrimSpace user.Password }
  let r1 := invoke (.Update user) (u.userRepo.Update user) w
  match r1.1.2 with
  | some err => (.ret (none, some err), r1.2)
  | none =>
    match r1.1.1 with
    | none => (.panic, r1.2)
    | some updatedUser =>
      let updatedUser := updatedUser.SanitizePassword
      let key := userUC.generateUserKey user.UserID.String
      let r2 := invoke (.DeleteUserCtx key) (u.redisRepo.DeleteUserCtx key) r1.2
      let w2 := logIfErr "userUC.Update.DeleteUserCtx: %s" r2.1 r2.2
      let updatedUser := updatedUser.SanitizePassword
      (.ret (some updatedUser, none), w2)

/-- The method `userUC.Delete`. -/
def userUC.Delete {σ : Type} (u : userUC σ) (userID : UUID) (w : Sys σ) :
    Outcome (Option Err) × Sys σ :=
  let r1 := invoke (.Delete userID) (u.userRepo.Delete userID) w
  match r1.1 with
  | some err => (.ret (some err), r1.2)
  | none =>
    let key := userUC.generateUserKey userID.String
    let r2 := invoke (.DeleteUserCtx key) (u.redisRepo.DeleteUserCtx key) r1.2
    let w2 := logIfErr "userUC.Delete.DeleteUserCtx: %s" r2.1 r2.2
    (.ret none, w2)

/-- The method `userUC.GetByID`. -/
def userUC.GetByID {σ : Type} (u : userUC σ) (userID : UUID) (w : Sys σ) :
    Outcome UserResult × Sys σ :=
  let key := userUC.generateUserKey userID.String
  let r1 := invoke (.GetByIDCtx key) (u.redisRepo.GetByIDCtx key) w
  let w1 := logIfErr "userUC.redisRepo.GetByIDCtx: %v" r1.1.2 r1.2
  match r1.1.1 with
  | some cachedUser => (.ret (some cachedUser, none), w1)
  | none =>
    let r2 := invoke (.GetByID userID) (u.userRepo.GetByID userID) w1
    match r2.1.2 with
    | some err => (.ret (none, some err), r2.2)
    | none =>
      let r3 := invoke (.SetUserCtx key userByIdCacheDuration r2.1.1)
        (u.redisRepo.SetUserCtx key userByIdCacheDuration r2.1.1) r2.2
      let w3 := logIfErr "userUC.redisRepo.SetUserCtx: %v" r3.1 r3.2
      match r2.1.1 with
      | none => (.panic, w3)
      | some user => (.ret (some user.SanitizePassword, none), w3)

/-- The method `userUC.Login`.  The primitive `bcrypt.CompareHashAndPassword`
is a parameter: it takes the stored hash and the supplied password. -/
def userUC.Login {σ : Type} (CompareHashAndPassword : String → String → Option Err)
    (u : userUC σ) (email password : String) (w : Sys σ) :
    Outcome UserResult × Sys σ :=
  let r1 := invoke (.FindByEmail email) (u.userRepo.FindByEmail email) w
  match r1.1.2 with
  | some err => (.ret (none, some (.Wrap err "userRepo.FindByEmail")), r1.2)
  | none =>
    match r1.1.1 with
    | none => (.panic, r1.2)
    | some foundUser =>
      match CompareHashAndPassword foundUser.Password password with
      | some err => (.ret (none, some (.Wrap err "user.ComparePasswords")), r1.2)
      | none => (.ret (some foundUser.SanitizePassword, none), r1.2)

/-- The method `userUC.UpdateRole`. -/
def userUC.UpdateRole {σ : Type} (u : userUC σ) (user : User) (w : Sys σ) :
    Outcome UserResult × Sys σ :=
  let user := { user with Email := ToLower (TrimSpace user.Email) }
  let user := { user with Password := TrimSpace user.Password }
  let r1 := invoke (.UpdateRole user) (u.userRepo.UpdateRole user) w
  match r1.1.2 with
  | some err => (.ret (none, some err), r1.2)
  | none =>
    match r1.1.1 with
    | none => (.panic, r1.2)
    | some updatedUser =>
      let updatedUser := updatedUser.SanitizePassword
      let key := userUC.generateUserKey user.UserID.String
      let r2 := invoke (.DeleteUserCtx key) (u.redisRepo.DeleteUserCtx key) r1.2
      let w2 := logIfErr "userUC.UpdateRole.DeleteUserCtx: %s" r2.1 r2.2
      let updatedUser := updatedUser.SanitizePassword
      (.ret (some updatedUser, none), w2)

/-- The record `userUC.Update` passes to the store: the input with the email
trimmed and lowercased and the password trimmed. -/
def normalized (user : User) : User :=
  { user with Email := ToLower (TrimSpace user.Email), Password := TrimSpace user.Password }

/-! ## The relational store -/

/-- The database behind `sqlx.DB`: the rows of table `users`, the clock read by
`now()`, the identifiers the table default will hand out, and the transport
outcome scheduled for each coming statement (`some e`: the statement fails
with `e` and changes nothing; an exhausted schedule means success).  The
constraints of the table definition are not among the sources and are not
modelled. -/
structure DB where
  users : List User
  now : Nat
  uuids : List UUID
  faults : List (Option Err)
  deriving DecidableEq, Repr, Inhabited

/-- The expression `COALESCE(NULLIF($n, ''), column)` for a text column that is
never NULL. -/
def coalesceText (arg column : String) : String :=
  if arg = "" then column else arg

/-- The expression `COALESCE(NULLIF($n, ''), column)` for a nullable text
column and a pointer argument (`nil` is NULL). -/
def coalesceOpt (arg column : Option String) : Option String :=
  match arg with
  | none => column
  | some a => if a = "" then column else some a

/-- The expression `COALESCE(NULLIF($10, 0), postcode)`. -/
def coalesceInt (arg column : Option Int) : Option Int :=
  match arg with
  | none => column
  | some a => if a = 0 then column else some a

/-- Modelled from the spec: the helper `utils.ParseTimeFormat` (pkg/utils is
not among the sources), which renders the birthday argument of the insert and
update statements.  Under the coalesce update an unset input field leaves the
stored value unchanged, so a `nil` birthday is rendered as the empty text
(`none`) and a set one as its date. -/
def ParseTimeFormat (birthday : Option Nat) : Option Nat := birthday

/-- The select list shared by `getUserQuery`, `findUsers` and `getUsers`: every
column except `password` and `country`, scanned into a fresh `models.User`. -/
def selectPublic (row : User) : User :=
  { row with Password := "", Country := none }

/-- The statement `createUserQuery`: inserts one row and returns it
(`RETURNING *`).  The identifier comes from the table default. -/
def createUserQuery (user : User) (db : DB) : List User × DB :=
  let row : User :=
    { UserID := db.uuids.headD default
      FirstName := user.FirstName
      LastName := user.LastName
      Email := user.Email
      Password := user.Password
      Role := some (coalesceText (user.Role.getD "") "user")
      About := user.About
      Avatar := user.Avatar
      PhoneNumber := user.PhoneNumber
      Address := user.Address
      City := user.City
      Country := none
      Gender := user.Gender
      Postcode := user.Postcode
      Birthday := ParseTimeFormat user.Birthday
      CreatedAt := db.now
      UpdatedAt := db.now
      LoginDate := db.now }
  ([row], { db with users := db.users ++ [row], uuids := db.uuids.tail })

/-- The assignment list of `updateUserQuery` applied to one row. -/
def updateUserRow (user : User) (now : Nat) (row : User) : User :=
  { row with
    FirstName := coalesceText user.FirstName row.FirstName
    LastName := coalesceText user.LastName row.LastName
    Email := coalesceText user.Email row.Email
    About := coalesceOpt user.About row.About
    Avatar := coalesceOpt user.Avatar row.Avatar
    PhoneNumber := coalesceOpt user.PhoneNumber row.PhoneNumber
    Address := coalesceOpt user.Address row.Address
    City := coalesceOpt user.City row.City
    Gender := coalesceOpt user.Gender row.Gender
    Postcode := coalesceInt user.Postcode row.Postcode
    Birthday := match ParseTimeFormat user.Birthday with
      | none => row.Birthday
      | some b => some b
    UpdatedAt := now }

/-- The statement `updateUserQuery`: rewrites the rows `WHERE user_id = $12`
and returns them. -/
def updateUserQuery (user : User) (db : DB) : List User × DB :=
  let rows := db.users.map fun row =>
    if row.UserID = user.UserID then updateUserRow user db.now row else row
  (rows.filter (fun row => row.UserID = user.UserID), { db with users := rows })

/-- The statement `updateUserRoleQuery`. -/
def updateUserRoleQuery (user : User) (db : DB) : List User × DB :=
  let rows := db.users.map fun row =>
    if row.UserID = user.UserID then
      { row with Role := coalesceOpt user.Role row.Role, UpdatedAt := db.now }
    else row
  (rows.filter (fun row => row.UserID = user.UserID), { db with users := rows })

/-- The statement `deleteUserQuery`; the rows it yields are the deleted ones,
whose number is the affected-row count. -/
def deleteUserQuery (userID : UUID) (db : DB) : List User × DB :=
  (db.users.filter (fun row => row.UserID = userID),
    { db with users := db.users.filter (fun row => ¬ row.UserID = userID) })

/-- The statement `getUserQuery`. -/
def getUserQuery (userID : UUID) (db : DB) : List User × DB :=
  ((db.users.filter (fun row => row.UserID = userID)).map selectPublic, db)

/-- The statement `findUserByEmail`: `WHERE email = $1`, with the password
column in the select list (and without `country`). -/
def findUserByEmail (email : String) (db : DB) : List User × DB :=
  ((db.users.filter (fun row => row.Email = email)).map
    (fun row => { row with Country := none }), db)

/-- Running one statement: the scheduled transport outcome is consumed, and
the statement runs only when that outcome is a success. -/
def DB.run (db : DB) (stmt : DB → List User × DB) : Except Err (List User) × DB :=
  match db.faults with
  | [] => (.ok (stmt db).1, (stmt db).2)
  | none :: rest =>
    (.ok (stmt { db with faults := rest }).1, (stmt { db with faults := rest }).2)
  | some e :: rest => (.error e, { db with faults := rest })

/-- Reading a single row, as `QueryRowxContext(...).StructScan` and
`GetContext` do: the first row, or `sql.ErrNoRows`. -/
def DB.GetContext (db : DB) (stmt : DB → List User × DB) : Except Err User × DB :=
  match (db.run stmt).1 with
  | .error e => (.error e, (db.run stmt).2)
  | .ok [] => (.error .ErrNoRows, (db.run stmt).2)
  | .ok (row :: _) => (.ok row, (db.run stmt).2)

/-- The value `sql.Result`, with its method `RowsAffected`. -/
structure Result where
  RowsAffected : Except Err Int

/-- The method `ExecContext`. -/
def DB.ExecContext (db : DB) (stmt : DB → List User × DB) : Except Err Result × DB :=
  match (db.run stmt).1 with
  | .error e => (.error e, (db.run stmt).2)
  | .ok rows => (.ok { RowsAffected := .ok rows.length }, (db.run stmt).2)

/-! ## The repository over the relational store (pg.go) -/

/-- The method `userRepo.Register`. -/
def userRepo.Register (user : User) (db : DB) : UserResult × DB :=
  match (db.GetContext (createUserQuery user)).1 with
  | .error err => ((none, some (.Wrap err "userRepo.Register.StructScan")), (db.GetContext (createUserQuery user)).2)
  | .ok createdUser => ((some createdUser, none), (db.GetContext (createUserQuery user)).2)

/-- The method `userRepo.Update`. -/
def userRepo.Update (user : User) (db : DB) : UserResult × DB :=
  match (db.GetContext (updateUserQuery user)).1 with
  | .error err => ((none, some (.Wrap err "userRepo.Update.GetContext")), (db.GetContext (updateUserQuery user)).2)
  | .ok updatedUser => ((some updatedUser, none), (db.GetContext (updateUserQuery user)).2)

/-- The method `userRepo.Delete`. -/
def userRepo.Delete (userID : UUID) (db : DB) : Option Err × DB :=
  match (db.ExecContext (deleteUserQuery userID)).1 with
  | .error err => (some (.Wrap err "userRepo Delete ExecContext"), (db.ExecContext (deleteUserQuery userID)).2)
  | .ok result =>
    match result.RowsAffected with
    | .error err => (some (.Wrap err "userRepo.Delete.RowsAffected"), (db.ExecContext (deleteUserQuery userID)).2)
    | .ok rowsAffected =>
      if rowsAffected = 0 then
        (some (.Wrap .ErrNoRows "userRepo.Delete.rowsAffected"), (db.ExecContext (deleteUserQuery userID)).2)
      else (none, (db.ExecContext (deleteUserQuery userID)).2)

/-- The method `userRepo.GetByID`. -/
def userRepo.GetByID (userID : UUID) (db : DB) : UserResult × DB :=
  match (db.GetContext (getUserQuery userID)).1 with
  | .error err => ((none, some (.Wrap err "userRepo.GetByID.QueryRowxContext")), (db.GetContext (getUserQuery userID)).2)
  | .ok user => ((some user, none), (db.GetContext (getUserQuery userID)).2)

/-- The method `userRepo.FindByEmail`. -/
def userRepo.FindByEmail (email : String) (db : DB) : UserResult × DB :=
  match (db.GetContext (findUserByEmail email)).1 with
  | .error err => ((none, some (.Wrap err "userRepo.FindByEmail.QueryRowxContext")), (db.GetContext (findUserByEmail email)).2)
  | .ok foundUser => ((some foundUser, none), (db.GetContext (findUserByEmail email)).2)

/-- The method `userRepo.UpdateRole`. -/
def userRepo.UpdateRole (user : User) (db : DB) : UserResult × DB :=
  match (db.GetContext (updateUserRoleQuery user)).1 with
  | .error err => ((none, some (.Wrap err "userRepo.UpdateRole.GetContext")), (db.GetContext (updateUserRoleQuery user)).2)
  | .ok updatedUser => ((some updatedUser, none), (db.GetContext (updateUserRoleQuery user)).2)

/-! ## The listing methods of the repository (pg.go) -/

/-- The value `sqlx.Rows` a row query yields: the outcome of `StructScan` on
each row in turn, and what `rows.Err()` reports after the last one. -/
structure Rows where
  scanned : List (Except Err User)
  Err : Option Err

/-- The methods of `sqlx.DB` the listing code calls, each on a listing
statement: `GetContext` into an `int`, `QueryxContext` and `SelectContext`.
What the database answers is left open; `δ` is its state. -/
structure ListingDB (δ : Type) where
  GetContext : Query → δ → Except Err Int × δ
  QueryxContext : Query → δ → Except Err Rows × δ
  SelectContext : Query → δ → Except Err (List User) × δ

/-- A Go result pair `(*models.UsersList, error)`. -/
abbrev ListResult := Option UsersList × Option Err

/-- The loop `for rows.Next() { rows.StructScan(&user); users = append(users, &user) }`:
the scanned users, or the first scan error. -/
def scanRows : List (Except Err User) → Except Err (List User)
  | [] => .ok []
  | .error err :: _ => .error err
  | .ok user :: rest =>
    match scanRows rest with
    | .error err => .error err
    | .ok users => .ok (user :: users)

/-- The largest capacity the allocation `make([]*models.User, 0, capacity)`
accepts: the runtime refuses more than `2^48` bytes, and a pointer takes 8. -/
def maxSliceCap : Int := 2 ^ 45

/-- Whether `make([]*models.User, 0, capacity)` panics (`makeslice: cap out of
range`): the capacity is negative or beyond what the runtime accepts.
Running out of memory below that bound ends the process and is not modelled. -/
def makeSlicePanics (capacity : Int) : Bool :=
  decide (capacity < 0) || decide (maxSliceCap < capacity)

/-- The method `userRepo.FindByName`.  The allocation
`make([]*models.User, 0, pq.GetSize())` follows the row query. -/
def userRepo.FindByName {δ : Type} (db : ListingDB δ) (name : String) (pq : PaginationQuery)
    (w : Sys δ) : Outcome ListResult × Sys δ :=
  let r1 := invoke (.Sql (.getTotalCount name)) (db.GetContext (.getTotalCount name)) w
  match r1.1 with
  | .error err =>
    (.ret (none, some (.Wrap err "userRepo.FindByName.GetContext.totalCount")), r1.2)
  | .ok totalCount =>
    if totalCount = 0 then
      (.ret (some { TotalCount := totalCount
                    TotalPages := GetTotalPages totalCount pq.GetSize
                    Page := pq.GetPage
                    Size := pq.GetSize
                    HasMore := GetHasMore pq.GetPage totalCount pq.GetSize
                    Users := some [] }, none), r1.2)
    else
      let r2 := invoke (.Sql (.findUsers name pq.GetOffset pq.GetSize))
        (db.QueryxContext (.findUsers name pq.GetOffset pq.GetSize)) r1.2
      match r2.1 with
      | .error err => (.ret (none, some (.Wrap err "userRepo.FindByName.QueryxContext")), r2.2)
      | .ok rows =>
        if makeSlicePanics pq.GetSize then (.panic, r2.2)
        else
          match scanRows rows.scanned with
          | .error err => (.ret (none, some (.Wrap err "userRepo.FindByName.StructScan")), r2.2)
          | .ok users =>
            match rows.Err with
            | some err => (.ret (none, some (.Wrap err "userRepo.FindByName.rows.Err")), r2.2)
            | none =>
              (.ret (some { TotalCount := totalCount
                            TotalPages := GetTotalPages totalCount pq.GetSize
                            Page := pq.GetPage
                            Size := pq.GetSize
                            HasMore := GetHasMore pq.GetPage totalCount pq.GetSize
                            Users := some users }, none), r2.2)

/-- The method `userRepo.GetUsers`.  The allocation
`make([]*models.User, 0, pq.GetSize())` precedes the row query. -/
def userRepo.GetUsers {δ : Type} (db : ListingDB δ) (pq : PaginationQuery) (w : Sys δ) :
    Outcome ListResult × Sys δ :=
  let r1 := invoke (.Sql .getTotal) (db.GetContext .getTotal) w
  match r1.1 with
  | .error err => (.ret (none, some (.Wrap err "userRepo.GetUsers.GetContext.totalCount")), r1.2)
  | .ok totalCount =>
    if totalCount = 0 then
      (.ret (some { TotalCount := totalCount
                    TotalPages := GetTotalPages totalCount pq.GetSize
                    Page := pq.GetPage
                    Size := pq.GetSize
                    HasMore := GetHasMore pq.GetPage totalCount pq.GetSize
                    Users := some [] }, none), r1.2)
    else if makeSlicePanics pq.GetSize then (.panic, r1.2)
    else
      let r2 := invoke (.Sql (.getUsers pq.GetOrderBy pq.GetOffset pq.GetLimit))
        (db.SelectContext (.getUsers pq.GetOrderBy pq.GetOffset pq.GetLimit)) r1.2
      match r2.1 with
      | .error err => (.ret (none, some (.Wrap err "userRepo.GetUsers.SelectContext")), r2.2)
      | .ok users =>
        (.ret (some { TotalCount := totalCount
                      TotalPages := GetTotalPages totalCount pq.GetSize
                      Page := pq.GetPage
                      Size := pq.GetSize
                      HasMore := GetHasMore pq.GetPage totalCount pq.GetSize
                      Users := some users }, none), r2.2)

/-- A database handle for examples: it answers every count with `total` and
every row query with the users `page`, and has no state. -/
def cannedDB (total : Int) (page : List User) : ListingDB Unit where
  GetContext _ _ := (.ok total, ())
  QueryxContext _ _ := (.ok { scanned := page.map .ok, Err := none }, ())
  SelectContext _ _ := (.ok page, ())

/-! ## The key-value server -/

/-- Modelled from the spec: the encoding of `models.User`, whose field tags
are in internal/models (not among the sources).  A cached value is "a
serialized full user snapshot (including credential hash)", so `json u` stands
for the document `json.Marshal` produces for `u`; `null` is the document of a
`nil` pointer and `raw s` is a value that is no document.  Likewise
`session s` stands for the "serialized session record `{token, userID}`". -/
inductive Bytes where
  | json (u : User)
  | null
  | raw (s : String)
  | session (s : Session)
  deriving DecidableEq, Repr, Inhabited

/-- The call `json.Marshal(user)` for a `*models.User`. -/
def Marshal (user : Option User) : Except Err Bytes :=
  match user with
  | some u => .ok (.json u)
  | none => .ok .null

/-- The call `json.Unmarshal(userBytes, user)` into a fresh `&models.User{}`:
the document `null` leaves the zero value in place, and the document of a
session record fills the one field the two records share, the user
identifier. -/
def Unmarshal (userBytes : Bytes) : Except Err User :=
  match userBytes with
  | .json u => .ok u
  | .null => .ok default
  | .raw s => .error (.Lib ("json: cannot decode " ++ s))
  | .session s => .ok { (default : User) with UserID := s.UserID }

/-- The call `json.Marshal(&sess)` for a `*models.Session`. -/
def MarshalSession (sess : Session) : Except Err Bytes := .ok (.session sess)

/-- The call `json.Unmarshal(sessBytes, &sess)` where `sess` is a pointer to a
fresh `&models.Session{}`: the document `null` sets that pointer to `nil`, and
the document of a user record fills the user identifier only. -/
def UnmarshalSession (sessBytes : Bytes) : Except Err (Option Session) :=
  match sessBytes with
  | .session s => .ok (some s)
  | .null => .ok none
  | .raw s => .error (.Lib ("json: cannot decode " ++ s))
  | .json u => .ok (some { SessionID := "", UserID := u.UserID })

/-- One key of the server: its value and the time at which it expires, if it
ever does. -/
structure Entry where
  key : String
  val : Bytes
  expireAt : Option Nat
  deriving DecidableEq, Repr, Inhabited

/-- The server behind `redis.Client`: the stored keys, the server clock in
seconds, and the transport outcome scheduled for each coming command (as for
`DB`). -/
structure RedisClient where
  entries : List Entry
  now : Nat
  faults : List (Option Err)
  deriving DecidableEq, Repr, Inhabited

/-- An entry is live while its expiration time has not been reached. -/
def Entry.live (now : Nat) (e : Entry) : Bool :=
  match e.expireAt with
  | none => true
  | some t => decide (now < t)

/-- Running one command against the server: the scheduled transport outcome is
consumed first. -/
def RedisClient.run {ρ : Type} (rc : RedisClient)
    (cmd : RedisClient → Except Err ρ × RedisClient) : Except Err ρ × RedisClient :=
  match rc.faults with
  | [] => cmd rc
  | none :: rest => cmd { rc with faults := rest }
  | some e :: rest => (.error e, { rc with faults := rest })

/-- The command `Get(key).Bytes()`: the value of a live key, `redis.Nil` when
there is none. -/
def RedisClient.Get (rc : RedisClient) (key : String) : Except Err Bytes × RedisClient :=
  rc.run fun rc =>
    match rc.entries.find? (fun e => e.key = key && e.live rc.now) with
    | some e => (.ok e.val, rc)
    | none => (.error .RedisNil, rc)

/-- The conversion `int64(x)`: the value modulo `2^64`, in two's complement. -/
def int64 (x : Int) : Int := (x + 2 ^ 63) % 2 ^ 64 - 2 ^ 63

/-- The expression `time.Second * time.Duration(seconds)`: a number of
nanoseconds computed in `int64`, so the product wraps around. -/
def durationOfSeconds (seconds : Int) : Int := int64 (1000000000 * int64 seconds)

/-- The constant `redis.KeepTTL` of go-redis. -/
def KeepTTL : Int := -1

/-- The test `usePrecise` of go-redis: a duration that is not a whole number
of seconds is sent in milliseconds. -/
def usePrecise (dur : Int) : Bool :=
  decide (dur < 1000000000) || decide (dur % 1000000000 ≠ 0)

/-- The function `formatMs` of go-redis: the duration in milliseconds, at least
one for a positive duration. -/
def formatMs (dur : Int) : Int :=
  if 0 < dur ∧ dur < 1000000 then 1 else dur / 1000000

/-- The function `formatSec` of go-redis: the duration in seconds, at least one
for a positive duration. -/
def formatSec (dur : Int) : Int :=
  if 0 < dur ∧ dur < 1000000000 then 1 else dur / 1000000000

/-- The time at which a key set at time `now` with a positive duration expires:
go-redis sends `PX formatMs` or `EX formatSec`.  The clock of the server takes
whole seconds only, and at such instants an expiry `m` milliseconds after `now`
is the same as one `⌈m / 1000⌉` seconds after `now`. -/
def expireAfter (now : Nat) (dur : Int) : Nat :=
  if usePrecise dur then now + ((formatMs dur + 999) / 1000).toNat
  else now + (formatSec dur).toNat

/-- The command `Set(key, value, time.Second * time.Duration(seconds)).Err()`.
go-redis sends an expiration for a positive duration, `KEEPTTL` for the
duration `KeepTTL`, and neither for any other duration: the key is then stored
without expiry. -/
def RedisClient.Set (rc : RedisClient) (key : String) (value : Bytes) (seconds : Int) :
    Except Err Unit × RedisClient :=
  rc.run fun rc =>
    let expiration := durationOfSeconds seconds
    let entry : Entry :=
      { key := key, val := value,
        expireAt :=
          if 0 < expiration then some (expireAfter rc.now expiration)
          else if expiration = KeepTTL then
            (rc.entries.find? (fun e => e.key = key && e.live rc.now)).bind Entry.expireAt
          else none }
    (.ok (), { rc with entries := entry :: rc.entries.filter (fun e => ¬ e.key = key) })

/-- The command `Del(key).Err()`: removing an absent key is a success. -/
def RedisClient.Del (rc : RedisClient) (key : String) : Except Err Unit × RedisClient :=
  rc.run fun rc =>
    (.ok (), { rc with entries := rc.entries.filter (fun e => ¬ e.key = key) })

/-- The passing of `seconds` seconds on the server clock. -/
def RedisClient.advance (rc : RedisClient) (seconds : Nat) : RedisClient :=
  { rc with now := rc.now + seconds }

/-! ## The repository over the key-value server (redis.go) -/

/-- The field `basePrefix` set by `NewUserRedisRepo`. -/
def userRedisRepo.basePrefix : String := "user:"

/-- The method `userRedisRepo.createKey`. -/
def userRedisRepo.createKey (value : String) : String :=
  Sprintf userRedisRepo.basePrefix value

/-- The method `userRedisRepo.GetByIDCtx`. -/
def userRedisRepo.GetByIDCtx (key : String) (rc : RedisClient) : UserResult × RedisClient :=
  match (rc.Get (userRedisRepo.createKey key)).1 with
  | .error err =>
    if err ≠ .RedisNil then ((none, some .ErrNotFound), (rc.Get (userRedisRepo.createKey key)).2)
    else ((none, some err), (rc.Get (userRedisRepo.createKey key)).2)
  | .ok userBytes =>
    match Unmarshal userBytes with
    | .error err => ((none, some err), (rc.Get (userRedisRepo.createKey key)).2)
    | .ok user => ((some user, none), (rc.Get (userRedisRepo.createKey key)).2)

/-- The method `userRedisRepo.SetUserCtx`. -/
def userRedisRepo.SetUserCtx (key : String) (seconds : Int) (user : Option User)
    (rc : RedisClient) : Option Err × RedisClient :=
  match Marshal user with
  | .error err => (some err, rc)
  | .ok userBytes =>
    match (rc.Set (userRedisRepo.createKey key) userBytes seconds).1 with
    | .error err => (some err, (rc.Set (userRedisRepo.createKey key) userBytes seconds).2)
    | .ok _ => (none, (rc.Set (userRedisRepo.createKey key) userBytes seconds).2)

/-- The method `userRedisRepo.DeleteUserCtx`. -/
def userRedisRepo.DeleteUserCtx (key : String) (rc : RedisClient) : Option Err × RedisClient :=
  match (rc.Del (userRedisRepo.createKey key)).1 with
  | .error err => (some err, (rc.Del (userRedisRepo.createKey key)).2)
  | .ok _ => (none, (rc.Del (userRedisRepo.createKey key)).2)

/-! ## The session repository (internal/session/repository/redis.go) -/

/-- The constant `basePrefix` of the session repository. -/
def SessionRepo.basePrefix : String := "api-session:"

/-- The method `SessionRepo.createKey`. -/
def SessionRepo.createKey (sessionID : String) : String :=
  Sprintf SessionRepo.basePrefix sessionID

/-- A Go result pair `(string, error)`. -/
abbrev TokenResult := String × Option Err

/-- A Go result pair `(*models.Session, error)`. -/
abbrev SessionResult := Option Session × Option Err

/-- The method `SessionRepo.CreateSession`.  The value `uuid.New()` returns is
the parameter `newID`. -/
def SessionRepo.CreateSession (newID : UUID) (sess : Session) (expire : Int)
    (rc : RedisClient) : TokenResult × RedisClient :=
  let sess := { sess with SessionID := newID.String }
  let sessionKey := SessionRepo.createKey sess.SessionID
  match MarshalSession sess with
  | .error err => (("", some (.Wrap err "SessionRepo.CreateSession.json.Marshal")), rc)
  | .ok sessBytes =>
    match (rc.Set sessionKey sessBytes expire).1 with
    | .error err =>
      (("", some (.Wrap err "SessionRepo.CreateSession.redisClient.Set")),
        (rc.Set sessionKey sessBytes expire).2)
    | .ok _ => ((sessionKey, none), (rc.Set sessionKey sessBytes expire).2)

/-- The method `SessionRepo.GetSessionByID`: the argument is used as the key as
it is. -/
def SessionRepo.GetSessionByID (sessionID : String) (rc : RedisClient) :
    SessionResult × RedisClient :=
  match (rc.Get sessionID).1 with
  | .error err =>
    ((none, some (.Wrap err "SessionRep.GetSessionByID.redisClient.Get")), (rc.Get sessionID).2)
  | .ok sessBytes =>
    match UnmarshalSession sessBytes with
    | .error err =>
      ((none, some (.Wrap err "SessionRepo.GetSessionByID.json.Unmarshal")), (rc.Get sessionID).2)
    | .ok sess => ((sess, none), (rc.Get sessionID).2)

/-- The method `SessionRepo.DeleteByID`. -/
def SessionRepo.DeleteByID (sessionID : String) (rc : RedisClient) : Option Err × RedisClient :=
  match (rc.Del sessionID).1 with
  | .error err => (some (.Wrap err "sessionRepo.DeleteByID"), (rc.Del sessionID).2)
  | .ok _ => (none, (rc.Del sessionID).2)

/-- What happens to the session store between two observations: time passes,
or `GetSessionByID` is called for some token. -/
inductive SessionEvent where
  | wait (seconds : Nat)
  | get (sessionID : String)
  deriving DecidableEq, Repr

/-- The session store after one event. -/
def SessionEvent.apply (ev : SessionEvent) (rc : RedisClient) : RedisClient :=
  match ev with
  | .wait seconds => rc.advance seconds
  | .get sessionID => (SessionRepo.GetSessionByID sessionID rc).2

/-- The session store after a sequence of events. -/
def runEvents (events : List SessionEvent) (rc : RedisClient) : RedisClient :=
  events.foldl (fun rc ev => ev.apply rc) rc

/-! ## The session use case (internal/session/usecase/usecase.go) -/

/-- The interface `session.SessRepository`, over a state `σ`. -/
structure SessRepository (σ : Type) where
  CreateSession : Session → Int → σ → TokenResult × σ
  GetSessionByID : String → σ → SessionResult × σ
  DeleteByID : String → σ → Option Err × σ

/-- The interface `session.UCSession`. -/
structure UCSession (σ : Type) where
  CreateSession : Session → Int → σ → TokenResult × σ
  GetSessionByID : String → σ → SessionResult × σ
  DeleteByID : String → σ → Option Err × σ

/-- The struct `SessionUC`. -/
structure SessionUC (σ : Type) where
  sessionRepo : SessRepository σ

/-- The method `SessionUC.CreateSession`. -/
def SessionUC.CreateSession {σ : Type} (u : SessionUC σ) (session : Session) (expire : Int)
    (st : σ) : TokenResult × σ :=
  u.sessionRepo.CreateSession session expire st

/-- The method `SessionUC.DeleteByID`. -/
def SessionUC.DeleteByID {σ : Type} (u : SessionUC σ) (sessionID : String) (st : σ) :
    Option Err × σ :=
  u.sessionRepo.DeleteByID sessionID st

/-- The method `SessionUC.GetSessionByID`. -/
def SessionUC.GetSessionByID {σ : Type} (u : SessionUC σ) (sessionID : String) (st : σ) :
    SessionResult × σ :=
  u.sessionRepo.GetSessionByID sessionID st

/-- The constructor `NewSessionUseCase`. -/
def NewSessionUseCase {σ : Type} (sessionRepo : SessRepository σ) : UCSession σ where
  CreateSession := SessionUC.CreateSession { sessionRepo := sessionRepo }
  GetSessionByID := SessionUC.GetSessionByID { sessionRepo := sessionRepo }
  DeleteByID := SessionUC.DeleteByID { sessionRepo := sessionRepo }

/-! ## The delivery layer (internal/user/delivery/grpc) -/

/-- The status codes of `google.golang.org/grpc/codes`. -/
inductive Code where
  | OK | Canceled | Unknown | InvalidArgument | DeadlineExceeded | NotFound
  | AlreadyExists | PermissionDenied | ResourceExhausted | FailedPrecondition
  | Aborted | OutOfRange | Unimplemented | Internal | Unavailable | DataLoss
  | Unauthenticated
  deriving DecidableEq, Repr, Inhabited

/-- The argument formatted into the message of a status error. -/
inductive StatusArg where
  | text (s : String)
  | cause (err : Err)
  deriving DecidableEq, Repr, Inhabited

/-- The error `status.Errorf(code, format, arg)`. -/
structure Status where
  code : Code
  format : String
  arg : StatusArg
  deriving DecidableEq, Repr, Inhabited

/-- The incoming metadata `metadata.MD`: keys with their lists of values. -/
abbrev MD := List (String × List String)

/-- The method `metadata.MD.Get`: the values under the lowercased key, the
`nil` slice when there are none. -/
def MD.Get (md : MD) (k : String) : List String :=
  match md.lookup (ToLower k) with
  | some values => values
  | none => []

/-- The message `userProto.User`. -/
structure ProtoUser where
  UserId : String
  FirstName : String
  LastName : String
  Email : String
  Password : String
  Role : String
  About : String
  Avatar : String
  PhoneNumber : String
  Address : String
  City : String
  Country : String
  Gender : String
  CreatedAt : Nat
  UpdatedAt : Nat
  LoginDate : Nat
  Birthday : Option Nat
  Postcode : Int
  deriving DecidableEq, Repr, Inhabited

/-- The conversion `int32(x)` of a Go `int`. -/
def int32 (x : Int) : Int := (x + 2 ^ 31) % 2 ^ 32 - 2 ^ 31

/-- Functions the handlers call that are not among the sources, taken as
parameters: `utils.ValidateEmail`, `grpc_errors.ParseGRPCErrStatusCode` and the
accessor methods of `models.User`. -/
structure Pkg where
  ValidateEmail : String → Bool
  ParseGRPCErrStatusCode : Err → Code
  GetRole : User → String
  GetAbout : User → String
  GetAvatar : User → String
  GetPhoneNumber : User → String
  GetAddress : User → String
  GetCity : User → String
  GetCountry : User → String
  GetGender : User → String

/-- The method `usersService.userModelToProto`. -/
def userModelToProto (pkg : Pkg) (user : User) : ProtoUser :=
  { UserId := user.UserID.String
    FirstName := user.FirstName
    LastName := user.LastName
    Email := user.Email
    Password := user.Password
    Role := pkg.GetRole user
    About := pkg.GetAbout user
    Avatar := pkg.GetAvatar user
    PhoneNumber := pkg.GetPhoneNumber user
    Address := pkg.GetAddress user
    City := pkg.GetCity user
    Country := pkg.GetCountry user
    Gender := pkg.GetGender user
    CreatedAt := user.CreatedAt
    UpdatedAt := user.UpdatedAt
    LoginDate := user.LoginDate
    Birthday := user.Birthday
    Postcode := match user.Postcode with
      | some postcode => int32 postcode
      | none => 0 }

/-- The part `Session` of `config.Config`. -/
structure SessionConfig where
  Expire : Int
  deriving DecidableEq, Repr, Inhabited

/-- The struct `config.Config`, with the part the handlers read. -/
structure Config where
  Session : SessionConfig
  deriving DecidableEq, Repr, Inhabited

/-- The interface `user.UseCase` (internal/user/usecase.go), over a state `σ`.
A call may panic, as the methods of `userUC` can. -/
structure UseCase (σ : Type) where
  Register : User → σ → Outcome UserResult × σ
  Login : String → String → σ → Outcome UserResult × σ
  Update : User → σ → Outcome UserResult × σ
  UpdateRole : User → σ → Outcome UserResult × σ
  Delete : UUID → σ → Outcome (Option Err) × σ
  GetByID : UUID → σ → Outcome UserResult × σ

/-- The struct `usersService` (service.go). -/
structure usersService (σ : Type) where
  cfg : Config
  userUC : UseCase σ
  sessUC : UCSession σ

/-- The message `userProto.LoginRequest`. -/
structure LoginRequest where
  Email : String
  Password : String
  deriving DecidableEq, Repr, Inhabited

/-- The message `userProto.LoginResponse`. -/
structure LoginResponse where
  User : ProtoUser
  SessionId : String
  deriving DecidableEq, Repr, Inhabited

/-- The method `usersService.Login`. -/
def usersService.Login {σ : Type} (pkg : Pkg) (u : usersService σ) (r : LoginRequest)
    (w : Sys σ) : Outcome (Option LoginResponse × Option Status) × Sys σ :=
  let email := r.Email
  if !pkg.ValidateEmail email then
    (.ret (none, some { code := .InvalidArgument, format := "ValidateEmail: %v",
                        arg := .text email }),
      { w with log := w.log ++ [.ErrorfText "ValidateEmail: %v" email] })
  else
    let r1 := invoke (.Login email r.Password) (u.userUC.Login email r.Password) w
    match r1.1 with
    | .panic => (.panic, r1.2)
    | .ret (_, some err) =>
      (.ret (none, some { code := pkg.ParseGRPCErrStatusCode err, format := "Login: %v",
                          arg := .cause err }),
        Errorf "userUC.Login: %v" err r1.2)
    | .ret (none, none) => (.panic, r1.2)
    | .ret (some user, none) =>
      let r2 := invoke (.CreateSession { SessionID := "", UserID := user.UserID }
          u.cfg.Session.Expire)
        (u.sessUC.CreateSession { SessionID := "", UserID := user.UserID }
          u.cfg.Session.Expire) r1.2
      match r2.1.2 with
      | some err =>
        (.ret (none, some { code := pkg.ParseGRPCErrStatusCode err,
                            format := "sessUC.CreateSession: %v", arg := .cause err }),
          Errorf "sessUC.CreateSession: %v" err r2.2)
      | none =>
        (.ret (some { User := userModelToProto pkg user, SessionId := r2.1.1 }, none), r2.2)

/-- The message `userProto.RegisterRequest`, with the fields the handler reads
and the password field of the request. -/
structure RegisterRequest where
  Email : String
  FirstName : String
  LastName : String
  Password : String
  Gender : String
  deriving DecidableEq, Repr, Inhabited

/-- The message `userProto.RegisterResponse`. -/
structure RegisterResponse where
  User : ProtoUser
  deriving DecidableEq, Repr, Inhabited

/-- The method `usersService.Register`.  The function `utils.ValidateStruct` is
not among the sources and is a parameter. -/
def usersService.Register {σ : Type} (ValidateStruct : User → Option Err) (pkg : Pkg)
    (u : usersService σ) (r : RegisterRequest) (w : Sys σ) :
    Outcome (Option RegisterResponse × Option Status) × Sys σ :=
  let gender := r.Gender
  let user : User :=
    { (default : User) with
      Email := r.Email
      FirstName := r.FirstName
      LastName := r.LastName
      Password := r.FirstName
      Gender := some gender }
  match ValidateStruct user with
  | some err =>
    (.ret (none, some { code := pkg.ParseGRPCErrStatusCode err, format := "ValidateStruct: %v",
                        arg := .cause err }),
      Errorf "ValidateStruct: %v" err w)
  | none =>
    let r1 := invoke (.Register user) (u.userUC.Register user) w
    match r1.1 with
    | .panic => (.panic, r1.2)
    | .ret (_, some err) =>
      (.ret (none, some { code := pkg.ParseGRPCErrStatusCode err, format := "Register: %v",
                          arg := .cause err }),
        Errorf "userUC.Register: %v" err r1.2)
    | .ret (none, none) => (.panic, r1.2)
    | .ret (some createdUser, none) =>
      (.ret (some { User := userModelToProto pkg createdUser }, none), r1.2)

/-- The key a trace entry addresses in the user cache, if it is a call of the
cache repository. -/
def cacheKeyOf : Call → Option String
  | .GetByIDCtx key => some key
  | .SetUserCtx key _ _ => some key
  | .DeleteUserCtx key => some key
  | _ => none

/-- The method `usersService.getSessionIDFromCtx`.  The context is the result
of `metadata.FromIncomingContext`: `none` when it carries no metadata.  The
expression `sessionID[0]` panics on an empty slice. -/
def usersService.getSessionIDFromCtx (ctx : Option MD) : Outcome (String × Option Status) :=
  match ctx with
  | none =>
    .ret ("", some { code := .Unauthenticated, format := "metadata.FromIncomingContext: %v",
                     arg := .cause .ErrNoCtxMetaData })
  | some md =>
    match md.Get "session_id" with
    | [] => .panic
    | first :: _ =>
      if first = "" then
        .ret ("", some { code := .PermissionDenied, format := "md.Get sessionId: %v",
                         arg := .cause .ErrInvalidSessionId })
      else .ret (first, none)

/-- The two collaborators the service is wired to (server.go). -/
structure Env where
  db : DB
  redis : RedisClient
  deriving DecidableEq, Repr, Inhabited

/-- A repository method over the database, run inside the environment. -/
def onDB {ρ : Type} (op : DB → ρ × DB) (env : Env) : ρ × Env :=
  ((op env.db).1, { env with db := (op env.db).2 })

/-- A repository method over the key-value server, run inside the environment. -/
def onRedis {ρ : Type} (op : RedisClient → ρ × RedisClient) (env : Env) : ρ × Env :=
  ((op env.redis).1, { env with redis := (op env.redis).2 })

/-- The constructor `NewUserRepository`. -/
def NewUserRepository : UserRepository Env where
  Register user := onDB (userRepo.Register user)
  Update user := onDB (userRepo.Update user)
  Delete userID := onDB (userRepo.Delete userID)
  GetByID userID := onDB (userRepo.GetByID userID)
  FindByEmail email := onDB (userRepo.FindByEmail email)
  UpdateRole user := onDB (userRepo.UpdateRole user)

/-- The constructor `NewUserRedisRepo`. -/
def NewUserRedisRepo : RedisRepository Env where
  GetByIDCtx key := onRedis (userRedisRepo.GetByIDCtx key)
  SetUserCtx key seconds user := onRedis (userRedisRepo.SetUserCtx key seconds user)
  DeleteUserCtx key := onRedis (userRedisRepo.DeleteUserCtx key)

/-- The constructor `NewUserUC`, applied as in server.go. -/
def NewUserUC : userUC Env :=
  { userRepo := NewUserRepository, redisRepo := NewUserRedisRepo }

/-- The state the handlers of the assembled service run on: the collaborators,
the trace of the calls the user orchestrator makes, and the identifiers the
coming calls of `uuid.New()` return. -/
structure Server where
  env : Env
  inner : List Call
  uuids : List UUID

/-- The constructor `NewSessionRepository`, on the key-value server of the
environment. -/
def NewSessionRepository : SessRepository Server where
  CreateSession sess expire s :=
    ((SessionRepo.CreateSession (s.uuids.headD default) sess expire s.env.redis).1,
      { s with
        env := { s.env with
          redis := (SessionRepo.CreateSession (s.uuids.headD default) sess expire s.env.redis).2 }
        uuids := s.uuids.tail })
  GetSessionByID sessionID s :=
    ((SessionRepo.GetSessionByID sessionID s.env.redis).1,
      { s with env := { s.env with redis := (SessionRepo.GetSessionByID sessionID s.env.redis).2 } })
  DeleteByID sessionID s :=
    ((SessionRepo.DeleteByID sessionID s.env.redis).1,
      { s with env := { s.env with redis := (SessionRepo.DeleteByID sessionID s.env.redis).2 } })

/-- A method of the user orchestrator, run on the state of the handlers. -/
def onServer {ρ : Type} (op : Sys Env → ρ × Sys Env) (s : Server) : ρ × Server :=
  ((op { st := s.env, log := s.inner }).1,
    { s with env := (op { st := s.env, log := s.inner }).2.st,
             inner := (op { st := s.env, log := s.inner }).2.log })

/-- The orchestrator `NewUserUC` seen through the interface `user.UseCase`,
for a given password verifier. -/
def userUseCase (CompareHashAndPassword : String → String → Option Err) : UseCase Server where
  Register user := onServer (NewUserUC.Register user)
  Login email password := onServer (NewUserUC.Login CompareHashAndPassword email password)
  Update user := onServer (NewUserUC.Update user)
  UpdateRole user := onServer (NewUserUC.UpdateRole user)
  Delete userID := onServer (NewUserUC.Delete userID)
  GetByID userID := onServer (NewUserUC.GetByID userID)

/-- The constructor `NewUserServerGRPC`, applied as in server.go. -/
def NewUserServerGRPC (cfg : Config) (CompareHashAndPassword : String → String → Option Err) :
    usersService Server :=
  { cfg := cfg, userUC := userUseCase CompareHashAndPassword,
    sessUC := NewSessionUseCase NewSessionRepository }

/-! ## The states the service reaches -/

/-- What happens to the assembled service between two observations: a method
of the user orchestrator or of the session repository is called (they share
the key-value server, server.go), time passes, or the relational store changes
in any way. -/
inductive ServiceCall where
  | Register (user : User)
  | Login (CompareHashAndPassword : String → String → Option Err) (email password : String)
  | Update (user : User)
  | UpdateRole (user : User)
  | Delete (userID : UUID)
  | GetByID (userID : UUID)
  | CreateSession (newID : UUID) (sess : Session) (expire : Int)
  | GetSessionByID (sessionID : String)
  | DeleteByID (sessionID : String)
  | wait (seconds : Nat)
  | store (db : DB)

/-- The service after one such step. -/
def ServiceCall.apply (call : ServiceCall) (w : Sys Env) : Sys Env :=
  match call with
  | .Register user => (NewUserUC.Register user w).2
  | .Login cmp email password => (NewUserUC.Login cmp email password w).2
  | .Update user => (NewUserUC.Update user w).2
  | .UpdateRole user => (NewUserUC.UpdateRole user w).2
  | .Delete userID => (NewUserUC.Delete userID w).2
  | .GetByID userID => (NewUserUC.GetByID userID w).2
  | .CreateSession newID sess expire =>
    { w with st := (onRedis (SessionRepo.CreateSession newID sess expire) w.st).2 }
  | .GetSessionByID sessionID =>
    { w with st := (onRedis (SessionRepo.GetSessionByID sessionID) w.st).2 }
  | .DeleteByID sessionID =>
    { w with st := (onRedis (SessionRepo.DeleteByID sessionID) w.st).2 }
  | .wait seconds => { w with st := { w.st with redis := w.st.redis.advance seconds } }
  | .store db => { w with st := { w.st with db := db } }

/-- A stored user, with a credential. -/
def alice : User :=
  { (default : User) with
    UserID := { canonical := "6ba7b810-9dad-11d1-80b4-00c04fd430c8" }
    FirstName := "Alice"
    LastName := "Liddell"
    Email := "alice@example.com"
    Password := "hash:wonderland"
    Role := some "user" }

/-- A database holding `alice` only. -/
def aliceDB : DB :=
  { users := [alice], now := 100,
    uuids := [{ canonical := "6ba7b811-9dad-11d1-80b4-00c04fd430c8" }], faults := [] }

/-- A key-value server holding nothing. -/
def emptyRedis : RedisClient := { entries := [], now := 100, faults := [] }

/-- The service over `aliceDB` and an empty cache, with an empty trace. -/
def aliceSys : Sys Env := { st := { db := aliceDB, redis := emptyRedis }, log := [] }

/-- A stand-in for `bcrypt.CompareHashAndPassword` in examples: the hash of a
password `p` is `"hash:" ++ p`. -/
def compareExample (hashedPassword password : String) : Option Err :=
  if hashedPassword = "hash:" ++ password then none else some .ErrMismatchedHashAndPassword

/-- A user who is not in `aliceDB`. -/
def bob : User :=
  { (default : User) with
    FirstName := "Bob"
    LastName := "Builder"
    Email := "bob@example.com"
    Password := "hash:canwefixit" }

/-- A cache holding, under the key of `alice`, the snapshot of her full record. -/
def aliceCachedRedis : RedisClient :=
  { entries := [{ key := userRedisRepo.createKey (userUC.generateUserKey alice.UserID.String),
                  val := .json alice, expireAt := some 3700 }],
    now := 100, faults := [] }

/-- The service over `aliceDB` and `aliceCachedRedis`. -/
def aliceCachedSys : Sys Env :=
  { st := { db := aliceDB, redis := aliceCachedRedis }, log := [] }

/-- The service over a database with no rows and an empty cache. -/
def noUsersSys : Sys Env :=
  { st := { db := { aliceDB with users := [] }, redis := emptyRedis }, log := [] }

/-- An identifier no row of `aliceDB` carries. -/
def strangerID : UUID := { canonical := "00000000-0000-4000-8000-000000000001" }

/-- A server whose next command fails in transport. -/
def brokenRedis : RedisClient :=
  { aliceCachedRedis with faults := [some (.Lib "dial tcp: connection refused")] }

/-- The service over `aliceDB` with a failing connection and an empty cache. -/
def storeDownSys : Sys Env :=
  { st := { db := { aliceDB with faults := [some (.Lib "pq: connection refused")] },
            redis := emptyRedis },
    log := [] }

/-- The cache as a first `userUC.GetByID` for `alice` over `aliceSys` leaves it:
it holds the snapshot that read has written. -/
def warmedRedis : RedisClient := (NewUserUC.GetByID alice.UserID aliceSys).2.st.redis

/-- The service over `aliceDB` and the warmed cache. -/
def warmedSys : Sys Env := { st := { db := aliceDB, redis := warmedRedis }, log := [] }

/-- The service over `aliceDB` and the warmed cache, with a transport failure
scheduled for the next cache command. -/
def staleSys : Sys Env :=
  { st := { db := aliceDB,
            redis := { warmedRedis with faults := [some (.Lib "dial tcp: connection refused")] } },
    log := [] }

/-- The identifier `uuid.New()` hands out in the examples. -/
def freshID : UUID := { canonical := "123e4567-e89b-42d3-a456-426614174000" }

/-- The session the Login handler asks for on behalf of `alice`. -/
def aliceSession : Session := { SessionID := "", UserID := alice.UserID }

/-- The token `CreateSession` returns for `freshID`. -/
def aliceToken : String := "api-session:: 123e4567-e89b-42d3-a456-426614174000"

/-- A cache repository none of whose commands gets through: every call returns
a transport error and changes nothing. -/
def downRedisRepo : RedisRepository Env where
  GetByIDCtx _ env := ((none, some .ErrNotFound), env)
  SetUserCtx _ _ _ env := (some (.Lib "dial tcp: connection refused"), env)
  DeleteUserCtx _ env := (some (.Lib "dial tcp: connection refused"), env)

/-- The cache repository of the service, except that writing a snapshot fails. -/
def noFillRedisRepo : RedisRepository Env :=
  { NewUserRedisRepo with
    SetUserCtx := fun _ _ _ env => (some (.Lib "dial tcp: connection refused"), env) }

/-- A stand-in for the functions of `Pkg` in examples: an address is valid when
it contains `@`, an `sql.ErrNoRows` chain is NotFound and any other error
Internal, and an accessor yields the empty text for an unset field. -/
def examplePkg : Pkg where
  ValidateEmail email := email.data.contains '@'
  ParseGRPCErrStatusCode err := if err.Is .ErrNoRows then .NotFound else .Internal
  GetRole user := user.Role.getD ""
  GetAbout user := user.About.getD ""
  GetAvatar user := user.Avatar.getD ""
  GetPhoneNumber user := user.PhoneNumber.getD ""
  GetAddress user := user.Address.getD ""
  GetCity user := user.City.getD ""
  GetCountry user := user.Country.getD ""
  GetGender user := user.Gender.getD ""

/-- The assembled service with a session expiry of 3600 seconds. -/
def exampleService : usersService Server :=
  NewUserServerGRPC { Session := { Expire := 3600 } } compareExample

/-- The handlers' state over `aliceDB` and an empty key-value server, with
`freshID` the next identifier. -/
def aliceServer : Sys Server :=
  { st := { env := { db := aliceDB, redis := emptyRedis }, inner := [], uuids := [freshID] },
    log := [] }

/-- A registration request whose password differs from its first name. -/
def bobRequest : RegisterRequest :=
  { Email := "bob@example.com", FirstName := "Bob", LastName := "Builder",
    Password := "s3cret-pw", Gender := "male" }

/-! ## Theorems -/

/-! ### Auxiliary facts -/

/-- Logging leaves the collaborators' state alone. -/
theorem logIfErr_st {σ : Type} (format : String) (err : Option Err) (w : Sys σ) :
    (logIfErr format err w).st = w.st := by
  cases err <;> rfl

/-- Logging appends the error line, if there is an error. -/
theorem logIfErr_log {σ : Type} (format : String) (err : Option Err) (w : Sys σ) :
    (logIfErr format err w).log = w.log ++ errLines format err := by
  cases err <;> simp [logIfErr, errLines, Errorf]

/-- A successful single-row read of `updateUserQuery` leaves the returned row
as the first row of the table with that identifier. -/
theorem updateUserQuery_first (user row : User) (db : DB)
    (h : (db.GetContext (updateUserQuery user)).1 = .ok row) :
    ((db.GetContext (updateUserQuery user)).2.users.filter
      (fun r => r.UserID = user.UserID)).head? = some row := by
  unfold DB.GetContext DB.run at *
  rcases hf : db.faults with _ | ⟨_ | e, rest⟩
  · simp only [hf] at h ⊢
    split at h <;> simp_all [updateUserQuery]
  · simp only [hf] at h ⊢
    split at h <;> simp_all [updateUserQuery]
  · simp only [hf] at h ⊢
    simp at h

/-- With a working connection `userRepo.GetByID` returns the first row that
carries the identifier, without the columns the query does not select. -/
theorem userRepo_GetByID_first (userID : UUID) (row : User) (db : DB)
    (hrow : (db.users.filter (fun r => r.UserID = userID)).head? = some row)
    (hok : db.faults.headD none = none) :
    (userRepo.GetByID userID db).1 = (some (selectPublic row), none) := by
  unfold userRepo.GetByID DB.GetContext DB.run
  rcases hf : db.faults with _ | ⟨_ | e, rest⟩
  · cases hl : db.users.filter (fun r => r.UserID = userID) with
    | nil => simp [hl] at hrow
    | cons a l =>
      simp only [hl, List.head?_cons, Option.some.injEq] at hrow
      simp [getUserQuery, hl, hrow]
  · cases hl : db.users.filter (fun r => r.UserID = userID) with
    | nil => simp [hl] at hrow
    | cons a l =>
      simp only [hl, List.head?_cons, Option.some.injEq] at hrow
      simp [getUserQuery, hl, hrow]
  · simp [hf] at hok

/-- With a failing connection `userRepo.GetByID` returns the wrapped failure. -/
theorem userRepo_GetByID_fault (userID : UUID) (e : Err) (db : DB)
    (hfault : db.faults.headD none = some e) :
    (userRepo.GetByID userID db).1 =
      (none, some (.Wrap e "userRepo.GetByID.QueryRowxContext")) := by
  unfold userRepo.GetByID DB.GetContext DB.run
  rcases hf : db.faults with _ | ⟨_ | e', rest⟩
  · simp [hf] at hfault
  · simp [hf] at hfault
  · simp [hf] at hfault
    simp [hfault]

/-- After a successful `DeleteUserCtx` the cache returns no user for the key. -/
theorem getByIDCtx_after_delete (key : String) (rc : RedisClient)
    (h : (userRedisRepo.DeleteUserCtx key rc).1 = none) :
    (userRedisRepo.GetByIDCtx key (userRedisRepo.DeleteUserCtx key rc).2).1.1 = none := by
  have hnone : ∀ (rc' : RedisClient),
      (∀ e ∈ rc'.entries, ¬ e.key = userRedisRepo.createKey key) →
      (userRedisRepo.GetByIDCtx key rc').1.1 = none := by
    intro rc' hk
    have hfind : ∀ now, rc'.entries.find?
        (fun e => e.key = userRedisRepo.createKey key && e.live now) = none := by
      intro now
      rw [List.find?_eq_none]
      intro e he
      simp [hk e he]
    unfold userRedisRepo.GetByIDCtx RedisClient.Get RedisClient.run
    rcases hf : rc'.faults with _ | ⟨_ | e, rest⟩
    · simp [hfind]
    · simp [hfind]
    · by_cases he : e = Err.RedisNil <;> simp [he]
  apply hnone
  unfold userRedisRepo.DeleteUserCtx RedisClient.Del RedisClient.run at *
  rcases hf : rc.faults with _ | ⟨_ | e, rest⟩
  · intro e he
    simp [List.mem_filter] at he
    exact he.2
  · intro e he
    simp [List.mem_filter] at he
    exact he.2
  · simp [hf] at h

/-- What a successful `userUC.Update` over the assembled service amounts to:
the single-row read of `updateUserQuery` returned a row, the returned user is
that row without its password, and the state is the database after the
statement together with the cache after `DeleteUserCtx`. -/
theorem update_success_inv (user out : User) (w : Sys Env)
    (hupd : (NewUserUC.Update user w).1 = .ret (some out, none)) :
    ∃ row, (w.st.db.GetContext (updateUserQuery (normalized user))).1 = .ok row ∧
      out = row.SanitizePassword ∧
      (NewUserUC.Update user w).2.st =
        { db := (w.st.db.GetContext (updateUserQuery (normalized user))).2,
          redis := (userRedisRepo.DeleteUserCtx
            (userUC.generateUserKey user.UserID.String) w.st.redis).2 } := by
  unfold userUC.Update at hupd ⊢
  simp only [invoke, NewUserUC, NewUserRepository, NewUserRedisRepo, onDB, onRedis,
    userRepo.Update, logIfErr_st] at hupd ⊢
  cases hA : (w.st.db.GetContext (updateUserQuery (normalized user))).1 with
  | error e =>
    simp only [normalized] at hA
    simp [hA] at hupd
  | ok row =>
    simp only [normalized] at hA
    simp only [hA] at hupd ⊢
    simp only [Outcome.ret.injEq, Prod.mk.injEq, Option.some.injEq, and_true] at hupd
    refine ⟨row, rfl, ?_, ?_⟩
    · rw [← hupd]; rfl
    · simp [normalized, logIfErr_st]

/-- With a working transport the command `Get` leaves the server as it is. -/
theorem redis_Get_state (key : String) (rc : RedisClient) (hup : rc.faults = []) :
    (rc.Get key).2 = rc := by
  unfold RedisClient.Get RedisClient.run
  simp only [hup]
  split <;> rfl

/-- With a working transport `GetSessionByID` leaves the store as it is. -/
theorem getSessionByID_state (sessionID : String) (rc : RedisClient)
    (hup : rc.faults = []) : (SessionRepo.GetSessionByID sessionID rc).2 = rc := by
  unfold SessionRepo.GetSessionByID
  split
  · exact redis_Get_state sessionID rc hup
  · split <;> exact redis_Get_state sessionID rc hup

/-- With a working transport a sequence of waits and reads changes nothing of
the store but its clock, which never goes back. -/
theorem runEvents_inv (events : List SessionEvent) (rc : RedisClient)
    (hup : rc.faults = []) :
    ∃ k, runEvents events rc = { rc with now := rc.now + k } := by
  induction events generalizing rc with
  | nil => exact ⟨0, rfl⟩
  | cons ev rest ih =>
    cases ev with
    | wait seconds =>
      obtain ⟨k, hk⟩ := ih (rc.advance seconds) hup
      refine ⟨seconds + k, ?_⟩
      simp only [runEvents, List.foldl_cons, SessionEvent.apply] at hk ⊢
      rw [hk]
      simp [RedisClient.advance, Nat.add_assoc]
    | get sessionID =>
      obtain ⟨k, hk⟩ := ih rc hup
      refine ⟨k, ?_⟩
      simp only [runEvents, List.foldl_cons, SessionEvent.apply] at hk ⊢
      rw [getSessionByID_state sessionID rc hup]
      exact hk

/-- The product `time.Second * time.Duration(seconds)` is never `KeepTTL`. -/
theorem durationOfSeconds_ne_keepTTL (seconds : Int) :
    ¬ durationOfSeconds seconds = KeepTTL := by
  unfold durationOfSeconds int64 KeepTTL
  norm_num
  omega

/-- Up to 9223372036 seconds the product does not wrap. -/
theorem durationOfSeconds_small (seconds : Int) (h0 : 0 < seconds)
    (h1 : seconds ≤ 9223372036) : durationOfSeconds seconds = 1000000000 * seconds := by
  unfold durationOfSeconds int64
  norm_num
  omega

/-- A duration of whole seconds expires that many seconds later. -/
theorem expireAfter_small (now : Nat) (seconds : Int) (h0 : 0 < seconds) :
    expireAfter now (1000000000 * seconds) = now + seconds.toNat := by
  unfold expireAfter usePrecise formatSec
  have h1 : ¬ (1000000000 * seconds < 1000000000) := by omega
  have h2 : (1000000000 * seconds) % 1000000000 = 0 := by omega
  have h3 : (1000000000 * seconds) / 1000000000 = seconds := by omega
  simp [h1, h2, h3]

/-- A positive duration expires later than now. -/
theorem expireAfter_gt (now : Nat) (dur : Int) (h : 0 < dur) : now < expireAfter now dur := by
  unfold expireAfter usePrecise formatMs formatSec
  split <;> split <;> omega

/-- What a successful `CreateSession` leaves behind: the returned token is the
key, and the store starts with the record under that key, no other entry
carries the key, and the clock is untouched. -/
theorem createSession_ok (newID : UUID) (sess : Session) (expire : Int) (rc : RedisClient)
    (h : (SessionRepo.CreateSession newID sess expire rc).1.2 = none) :
    (SessionRepo.CreateSession newID sess expire rc).1.1 = SessionRepo.createKey newID.String ∧
    (SessionRepo.CreateSession newID sess expire rc).2.now = rc.now ∧
    (SessionRepo.CreateSession newID sess expire rc).2.faults = rc.faults.tail ∧
    ∃ rest, (∀ e ∈ rest, ¬ e.key = SessionRepo.createKey newID.String) ∧
      (SessionRepo.CreateSession newID sess expire rc).2.entries =
        { key := SessionRepo.createKey newID.String,
          val := .session { SessionID := newID.String, UserID := sess.UserID },
          expireAt :=
            if 0 < durationOfSeconds expire then
              some (expireAfter rc.now (durationOfSeconds expire))
            else none } :: rest := by
  unfold SessionRepo.CreateSession MarshalSession RedisClient.Set RedisClient.run at *
  rcases hf : rc.faults with _ | ⟨_ | e, tl⟩
  · simp only [hf, List.tail_nil, List.tail_cons, and_self, true_and,
      if_neg (durationOfSeconds_ne_keepTTL expire)]
    refine ⟨_, ?_, rfl⟩
    intro e he
    simp [List.mem_filter] at he
    exact he.2
  · simp only [hf, List.tail_nil, List.tail_cons, and_self, true_and,
      if_neg (durationOfSeconds_ne_keepTTL expire)]
    refine ⟨_, ?_, rfl⟩
    intro e he
    simp [List.mem_filter] at he
    exact he.2
  · simp [hf] at h

/-- Reading a token whose record heads the store and is the only entry under
its key: the record while it is live, `redis.Nil` once it is not. -/
theorem getSessionByID_head (k : String) (s : Session) (deadline : Option Nat)
    (rest : List Entry) (rc : RedisClient)
    (hent : rc.entries = { key := k, val := .session s, expireAt := deadline } :: rest)
    (hrest : ∀ e ∈ rest, ¬ e.key = k) (hup : rc.faults.headD none = none) :
    (SessionRepo.GetSessionByID k rc).1 =
      if Entry.live rc.now { key := k, val := .session s, expireAt := deadline } then
        (some s, none)
      else (none, some (.Wrap .RedisNil "SessionRep.GetSessionByID.redisClient.Get")) := by
  have hfind : ∀ now, rest.find? (fun e => e.key = k && e.live now) = none := by
    intro now
    rw [List.find?_eq_none]
    intro e he
    simp [hrest e he]
  unfold SessionRepo.GetSessionByID RedisClient.Get RedisClient.run
  rcases hf : rc.faults with _ | ⟨_ | e, tl⟩
  · by_cases hl : Entry.live rc.now { key := k, val := .session s, expireAt := deadline }
    · simp [hent, List.find?_cons, hl, UnmarshalSession]
    · simp [hent, List.find?_cons, hl, hfind]
  · by_cases hl : Entry.live rc.now { key := k, val := .session s, expireAt := deadline }
    · simp [hent, List.find?_cons, hl, UnmarshalSession]
    · simp [hent, List.find?_cons, hl, hfind]
  · simp [hf] at hup

/-- With a working transport `DeleteByID` succeeds, leaves nothing that
`GetSessionByID` can read under the token, and is idempotent. -/
theorem deleteByID_general (t : String) (rc : RedisClient) (hup : rc.faults = []) :
    (SessionRepo.DeleteByID t rc).1 = none ∧
    (SessionRepo.DeleteByID t rc).2.faults = [] ∧
    (SessionRepo.GetSessionByID t (SessionRepo.DeleteByID t rc).2).1 =
      (none, some (.Wrap .RedisNil "SessionRep.GetSessionByID.redisClient.Get")) ∧
    (SessionRepo.DeleteByID t (SessionRepo.DeleteByID t rc).2).1 = none ∧
    (SessionRepo.DeleteByID t (SessionRepo.DeleteByID t rc).2).2 =
      (SessionRepo.DeleteByID t rc).2 := by
  have hstate : (SessionRepo.DeleteByID t rc).2 =
      { rc with entries := rc.entries.filter (fun e => ¬ e.key = t) } := by
    simp [SessionRepo.DeleteByID, RedisClient.Del, RedisClient.run, hup]
  have hfind : ∀ now, (rc.entries.filter (fun e => ¬ e.key = t)).find?
      (fun e => e.key = t && e.live now) = none := by
    intro now
    rw [List.find?_eq_none]
    intro e he
    simp [List.mem_filter] at he
    simp [he.2]
  refine ⟨?_, ?_, ?_, ?_, ?_⟩
  · simp [SessionRepo.DeleteByID, RedisClient.Del, RedisClient.run, hup]
  · rw [hstate]; exact hup
  · rw [hstate]
    simp only [SessionRepo.GetSessionByID, RedisClient.Get, RedisClient.run, hup, hfind]
  · rw [hstate]
    simp [SessionRepo.DeleteByID, RedisClient.Del, RedisClient.run, hup]
  · rw [hstate]
    simp [SessionRepo.DeleteByID, RedisClient.Del, RedisClient.run, hup, List.filter_filter]

/-- The calls added by a run whose trace extends the earlier one by `t`. -/
theorem newCalls_of_append {σ : Type} (w w' : Sys σ) (t : List Call)
    (h : w'.log = w.log ++ t) : newCalls w w' = t := by
  simp [newCalls, h]

/-- Text appended to a fixed leading part determines the appended text. -/
theorem append_left_cancel (p a b : String) (h : p ++ a = p ++ b) : a = b := by
  have hd := congrArg String.data h
  simp only [String.data_append] at hd
  exact String.ext (List.append_cancel_left hd)

/-- A log line addresses no cache key. -/
theorem cacheKeyOf_errLines (format : String) (err : Option Err) (c : Call)
    (h : c ∈ errLines format err) : cacheKeyOf c = none := by
  cases err with
  | none => simp [errLines] at h
  | some e =>
    simp [errLines] at h
    subst h
    rfl

/-- The cache calls of `userUC.GetByID` address the key of the identifier. -/
theorem getByID_cache_keys {σ : Type} (uc : userUC σ) (userID : UUID) (w : Sys σ) :
    ∀ c ∈ newCalls w (uc.GetByID userID w).2, ∀ k, cacheKeyOf c = some k →
      k = userUC.generateUserKey userID.String := by
  have hlog : ∃ t, (uc.GetByID userID w).2.log = w.log ++ t ∧
      ∀ c ∈ t, ∀ k, cacheKeyOf c = some k → k = userUC.generateUserKey userID.String := by
    unfold userUC.GetByID
    simp only [invoke, logIfErr_st]
    split
    · refine ⟨_, by rw [logIfErr_log, List.append_assoc], ?_⟩
      intro c hc k hk
      rcases List.mem_append.1 hc with h | h
      · simp at h; subst h; simp [cacheKeyOf] at hk; exact hk.symm
      · rw [cacheKeyOf_errLines _ _ c h] at hk; cases hk
    · split
      · refine ⟨_, by rw [logIfErr_log, List.append_assoc, List.append_assoc], ?_⟩
        intro c hc k hk
        rcases List.mem_append.1 hc with h | h
        · simp at h; subst h; simp [cacheKeyOf] at hk; exact hk.symm
        · rcases List.mem_append.1 h with h | h
          · rw [cacheKeyOf_errLines _ _ c h] at hk; cases hk
          · simp at h; subst h; simp [cacheKeyOf] at hk
      · have key : ∃ t, (logIfErr "userUC.redisRepo.SetUserCtx: %v"
            (uc.redisRepo.SetUserCtx (userUC.generateUserKey userID.String) userByIdCacheDuration
              (uc.userRepo.GetByID userID
                (uc.redisRepo.GetByIDCtx (userUC.generateUserKey userID.String) w.st).2).1.1
              (uc.userRepo.GetByID userID
                (uc.redisRepo.GetByIDCtx (userUC.generateUserKey userID.String) w.st).2).2).1
            { st := (uc.redisRepo.SetUserCtx (userUC.generateUserKey userID.String)
                  userByIdCacheDuration
                  (uc.userRepo.GetByID userID
                    (uc.redisRepo.GetByIDCtx (userUC.generateUserKey userID.String) w.st).2).1.1
                  (uc.userRepo.GetByID userID
                    (uc.redisRepo.GetByIDCtx (userUC.generateUserKey userID.String) w.st).2).2).2,
              log := (logIfErr "userUC.redisRepo.GetByIDCtx: %v"
                  (uc.redisRepo.GetByIDCtx (userUC.generateUserKey userID.String) w.st).1.2
                  { st := (uc.redisRepo.GetByIDCtx (userUC.generateUserKey userID.String) w.st).2,
                    log := w.log ++ [Call.GetByIDCtx (userUC.generateUserKey userID.String)] }).log
                ++ [Call.GetByID userID] ++
                [Call.SetUserCtx (userUC.generateUserKey userID.String) userByIdCacheDuration
                  (uc.userRepo.GetByID userID
                    (uc.redisRepo.GetByIDCtx (userUC.generateUserKey userID.String)
                      w.st).2).1.1] }).log = w.log ++ t ∧
            ∀ c ∈ t, ∀ k, cacheKeyOf c = some k →
              k = userUC.generateUserKey userID.String := by
          refine ⟨_, by rw [logIfErr_log, logIfErr_log]; simp only [List.append_assoc]; rfl, ?_⟩
          intro c hc k hk
          simp only [List.mem_append, List.mem_cons, List.mem_singleton, List.not_mem_nil,
            or_false] at hc
          rcases hc with h | h | h | h | h
          · subst h; simp [cacheKeyOf] at hk; exact hk.symm
          · rw [cacheKeyOf_errLines _ _ c h] at hk; cases hk
          · subst h; simp [cacheKeyOf] at hk
          · subst h; simp [cacheKeyOf] at hk; exact hk.symm
          · rw [cacheKeyOf_errLines _ _ c h] at hk; cases hk
        split <;> exact key
  obtain ⟨t, ht, hkeys⟩ := hlog
  rw [newCalls_of_append w _ t ht]
  exact hkeys

/-- The cache calls of `userUC.Update` address the key of the user's
identifier. -/
theorem update_cache_keys {σ : Type} (uc : userUC σ) (user : User) (w : Sys σ) :
    ∀ c ∈ newCalls w (uc.Update user w).2, ∀ k, cacheKeyOf c = some k →
      k = userUC.generateUserKey user.UserID.String := by
  have hlog : ∃ t, (uc.Update user w).2.log = w.log ++ t ∧
      ∀ c ∈ t, ∀ k, cacheKeyOf c = some k → k = userUC.generateUserKey user.UserID.String := by
    unfold userUC.Update
    simp only [invoke]
    split
    · refine ⟨_, rfl, ?_⟩
      intro c hc k hk
      simp at hc; subst hc; simp [cacheKeyOf] at hk
    · split
      · refine ⟨_, rfl, ?_⟩
        intro c hc k hk
        simp at hc; subst hc; simp [cacheKeyOf] at hk
      · refine ⟨_, by rw [logIfErr_log]; simp only [List.append_assoc]; rfl, ?_⟩
        intro c hc k hk
        simp only [List.mem_append, List.mem_cons, List.mem_singleton, List.not_mem_nil,
          or_false] at hc
        rcases hc with h | h | h
        · subst h; simp [cacheKeyOf] at hk
        · subst h; simp [cacheKeyOf] at hk; exact hk.symm
        · rw [cacheKeyOf_errLines _ _ c h] at hk; cases hk
  obtain ⟨t, ht, hkeys⟩ := hlog
  rw [newCalls_of_append w _ t ht]
  exact hkeys

/-- The cache calls of `userUC.UpdateRole` address the key of the user's
identifier. -/
theorem updateRole_cache_keys {σ : Type} (uc : userUC σ) (user : User) (w : Sys σ) :
    ∀ c ∈ newCalls w (uc.UpdateRole user w).2, ∀ k, cacheKeyOf c = some k →
      k = userUC.generateUserKey user.UserID.String := by
  have hlog : ∃ t, (uc.UpdateRole user w).2.log = w.log ++ t ∧
      ∀ c ∈ t, ∀ k, cacheKeyOf c = some k → k = userUC.generateUserKey user.UserID.String := by
    unfold userUC.UpdateRole
    simp only [invoke]
    split
    · refine ⟨_, rfl, ?_⟩
      intro c hc k hk
      simp at hc; subst hc; simp [cacheKeyOf] at hk
    · split
      · refine ⟨_, rfl, ?_⟩
        intro c hc k hk
        simp at hc; subst hc; simp [cacheKeyOf] at hk
      · refine ⟨_, by rw [logIfErr_log]; simp only [List.append_assoc]; rfl, ?_⟩
        intro c hc k hk
        simp only [List.mem_append, List.mem_cons, List.mem_singleton, List.not_mem_nil,
          or_false] at hc
        rcases hc with h | h | h
        · subst h; simp [cacheKeyOf] at hk
        · subst h; simp [cacheKeyOf] at hk; exact hk.symm
        · rw [cacheKeyOf_errLines _ _ c h] at hk; cases hk
  obtain ⟨t, ht, hkeys⟩ := hlog
  rw [newCalls_of_append w _ t ht]
  exact hkeys

/-- The cache calls of `userUC.Delete` address the key of the identifier. -/
theorem delete_cache_keys {σ : Type} (uc : userUC σ) (userID : UUID) (w : Sys σ) :
    ∀ c ∈ newCalls w (uc.Delete userID w).2, ∀ k, cacheKeyOf c = some k →
      k = userUC.generateUserKey userID.String := by
  have hlog : ∃ t, (uc.Delete userID w).2.log = w.log ++ t ∧
      ∀ c ∈ t, ∀ k, cacheKeyOf c = some k → k = userUC.generateUserKey userID.String := by
    unfold userUC.Delete
    simp only [invoke]
    split
    · refine ⟨_, rfl, ?_⟩
      intro c hc k hk
      simp at hc; subst hc; simp [cacheKeyOf] at hk
    · refine ⟨_, by rw [logIfErr_log]; simp only [List.append_assoc]; rfl, ?_⟩
      intro c hc k hk
      simp only [List.mem_append, List.mem_cons, List.mem_singleton, List.not_mem_nil,
        or_false] at hc
      rcases hc with h | h | h
      · subst h; simp [cacheKeyOf] at hk
      · subst h; simp [cacheKeyOf] at hk; exact hk.symm
      · rw [cacheKeyOf_errLines _ _ c h] at hk; cases hk
  obtain ⟨t, ht, hkeys⟩ := hlog
  rw [newCalls_of_append w _ t ht]
  exact hkeys

/-- C1: if the lookup by the input's email finds a user, `userUC.Register`
returns the email-exists error, and the only call it makes is that lookup: the
store's `Register` is not invoked and the state is the one the lookup left. -/
theorem register_conflict_when_email_found {σ : Type} (uc : userUC σ) (user : User)
    (w : Sys σ) (h : (uc.userRepo.FindByEmail user.Email w.st).1.1.isSome = true) :
    (uc.Register user w).1 = .ret (none, some .ErrEmailExists) ∧
    (uc.Register user w).2.log = w.log ++ [.FindByEmail user.Email] ∧
    (uc.Register user w).2.st = (uc.userRepo.FindByEmail user.Email w.st).2 := by
  simp [userUC.Register, invoke, h]

/-- C1 witness: registering `alice` again over `aliceDB`. -/
theorem register_conflict_when_email_found_witness :
    (NewUserUC.userRepo.FindByEmail alice.Email aliceSys.st).1.1.isSome = true ∧
    (NewUserUC.Register alice aliceSys).1 = .ret (none, some .ErrEmailExists) ∧
    (NewUserUC.Register alice aliceSys).2.log = aliceSys.log ++ [.FindByEmail alice.Email] ∧
    (NewUserUC.Register alice aliceSys).2.st =
      (NewUserUC.userRepo.FindByEmail alice.Email aliceSys.st).2 :=
  ⟨by decide, register_conflict_when_email_found NewUserUC alice aliceSys (by decide)⟩

/-- C2: evaluation at the failing input.  `aliceDB` holds a user with email
`alice@example.com`; registering with ` Alice@Example.COM `, which trims and
lowercases to that email, looks up the raw text, finds nothing, invokes the
store's `Register` and returns the created user, leaving two rows.  The same
happens for `Alice@Example.COM`, which differs in case only. -/
theorem register_unnormalized_email_is_written :
    ToLower (TrimSpace " Alice@Example.COM ") = alice.Email ∧
    (∃ created, (NewUserUC.Register { alice with Email := " Alice@Example.COM " } aliceSys).1
      = .ret (some created, none) ∧ created.Email = " Alice@Example.COM ") ∧
    (NewUserUC.Register { alice with Email := " Alice@Example.COM " } aliceSys).2.log
      = [.FindByEmail " Alice@Example.COM ",
         .Register { alice with Email := " Alice@Example.COM " }] ∧
    ((NewUserUC.Register { alice with Email := " Alice@Example.COM " } aliceSys).2.st.db.users.map
      User.Email) = ["alice@example.com", " Alice@Example.COM "] ∧
    ToLower (TrimSpace "Alice@Example.COM") = alice.Email ∧
    (∃ created, (NewUserUC.Register { alice with Email := "Alice@Example.COM" } aliceSys).1
      = .ret (some created, none) ∧ created.Email = "Alice@Example.COM") ∧
    ((NewUserUC.Register { alice with Email := "Alice@Example.COM" } aliceSys).2.st.db.users.map
      User.Email) = ["alice@example.com", "Alice@Example.COM"] := by
  refine ⟨by decide, ⟨_, rfl, by decide⟩, by decide, by decide, by decide,
    ⟨_, rfl, by decide⟩, by decide⟩

/-- C3: whenever `userUC.Register`, `userUC.Login`, `userUC.Update` or
`userUC.UpdateRole` returns a user, for any behaviour of the store and of the
cache and any password verifier, the password of the returned user is empty. -/
theorem returned_user_has_no_password {σ : Type} (uc : userUC σ)
    (cmp : String → String → Option Err) (user : User) (email password : String)
    (w : Sys σ) (out : User) (err : Option Err) :
    ((uc.Register user w).1 = .ret (some out, err) → out.Password = "") ∧
    ((uc.Login cmp email password w).1 = .ret (some out, err) → out.Password = "") ∧
    ((uc.Update user w).1 = .ret (some out, err) → out.Password = "") ∧
    ((uc.UpdateRole user w).1 = .ret (some out, err) → out.Password = "") := by
  refine ⟨?_, ?_, ?_, ?_⟩
  · intro h
    unfold userUC.Register at h
    dsimp only at h
    split at h
    · simp at h
    · split at h
      · simp at h
      · split at h
        · simp at h
        · simp at h
          rw [← h.1]; rfl
  · intro h
    unfold userUC.Login at h
    dsimp only at h
    split at h
    · simp at h
    · split at h
      · simp at h
      · split at h
        · simp at h
        · simp at h
          rw [← h.1]; rfl
  · intro h
    unfold userUC.Update at h
    dsimp only at h
    split at h
    · simp at h
    · split at h
      · simp at h
      · simp at h
        rw [← h.1]; rfl
  · intro h
    unfold userUC.UpdateRole at h
    dsimp only at h
    split at h
    · simp at h
    · split at h
      · simp at h
      · simp at h
        rw [← h.1]; rfl

/-- C3 witness: over `aliceDB` the four operations succeed on records that
carry a credential in the store, and return them without it. -/
theorem returned_user_has_no_password_witness :
    (∃ out, (NewUserUC.Register bob aliceSys).1 = .ret (some out, none) ∧
      out.Email = bob.Email ∧ out.Password = "") ∧
    (∃ out, (NewUserUC.Login compareExample "alice@example.com" "wonderland" aliceSys).1
      = .ret (some out, none) ∧ out.Email = alice.Email ∧ out.Password = "") ∧
    (∃ out, (NewUserUC.Update { alice with FirstName := "Alicia" } aliceSys).1
      = .ret (some out, none) ∧ out.FirstName = "Alicia" ∧ out.Password = "") ∧
    (∃ out, (NewUserUC.UpdateRole { alice with Role := some "admin" } aliceSys).1
      = .ret (some out, none) ∧ out.Role = some "admin" ∧ out.Password = "") :=
  ⟨⟨_, rfl, by decide,
      (returned_user_has_no_password NewUserUC compareExample bob "" "" aliceSys _ none).1 rfl⟩,
    ⟨_, rfl, by decide,
      (returned_user_has_no_password NewUserUC compareExample bob "alice@example.com"
        "wonderland" aliceSys _ none).2.1 rfl⟩,
    ⟨_, rfl, by decide,
      (returned_user_has_no_password NewUserUC compareExample { alice with FirstName := "Alicia" }
        "" "" aliceSys _ none).2.2.1 rfl⟩,
    ⟨_, rfl, by decide,
      (returned_user_has_no_password NewUserUC compareExample { alice with Role := some "admin" }
        "" "" aliceSys _ none).2.2.2 rfl⟩⟩

/-- C5 counterexample: for the email and password `alice@example.com` /
`wrong`, `userUC.Login` returns one error when no stored user has the email and
a different one when the user exists and the password does not verify; the
first is an `sql.ErrNoRows` chain, the second is not. -/
theorem login_errors_reveal_whether_email_exists :
    (NewUserUC.Login compareExample "alice@example.com" "wrong" noUsersSys).1 =
      .ret (none, some (.Wrap (.Wrap .ErrNoRows "userRepo.FindByEmail.QueryRowxContext")
        "userRepo.FindByEmail")) ∧
    (NewUserUC.Login compareExample "alice@example.com" "wrong" aliceSys).1 =
      .ret (none, some (.Wrap .ErrMismatchedHashAndPassword "user.ComparePasswords")) ∧
    ¬ (NewUserUC.Login compareExample "alice@example.com" "wrong" noUsersSys).1 =
      (NewUserUC.Login compareExample "alice@example.com" "wrong" aliceSys).1 ∧
    Err.Is (.Wrap (.Wrap .ErrNoRows "userRepo.FindByEmail.QueryRowxContext")
      "userRepo.FindByEmail") .ErrNoRows = true ∧
    Err.Is (.Wrap .ErrMismatchedHashAndPassword "user.ComparePasswords") .ErrNoRows = false := by
  refine ⟨by decide, by decide, by decide, by decide, by decide⟩

/-- C5 (amended): `userUC.Login` returns no user in both failures, with
different errors.  When the lookup fails with `e₁` it returns `e₁` wrapped as
`userRepo.FindByEmail`; when the user is found and the verifier rejects the
password with `e₂` it returns `e₂` wrapped as `user.ComparePasswords`; the two
outcomes are never equal. -/
theorem login_failures_are_distinct {σ : Type} (uc : userUC σ)
    (cmp : String → String → Option Err) (email password : String) (w₁ w₂ : Sys σ)
    (e₁ e₂ : Err) (found : User)
    (hmiss : (uc.userRepo.FindByEmail email w₁.st).1.2 = some e₁)
    (hfound : (uc.userRepo.FindByEmail email w₂.st).1 = (some found, none))
    (hbad : cmp found.Password password = some e₂) :
    (uc.Login cmp email password w₁).1 = .ret (none, some (.Wrap e₁ "userRepo.FindByEmail")) ∧
    (uc.Login cmp email password w₂).1 = .ret (none, some (.Wrap e₂ "user.ComparePasswords")) ∧
    (uc.Login cmp email password w₁).1 ≠ (uc.Login cmp email password w₂).1 := by
  have h1 : (uc.Login cmp email password w₁).1 =
      .ret (none, some (.Wrap e₁ "userRepo.FindByEmail")) := by
    simp [userUC.Login, invoke, hmiss]
  have h2 : (uc.Login cmp email password w₂).1 =
      .ret (none, some (.Wrap e₂ "user.ComparePasswords")) := by
    simp [userUC.Login, invoke, hfound, hbad]
  refine ⟨h1, h2, ?_⟩
  rw [h1, h2]
  simp

/-- C5 witness: the two failures over a database without and with `alice`. -/
theorem login_failures_are_distinct_witness :
    (NewUserUC.Login compareExample "alice@example.com" "wrong" noUsersSys).1 =
      .ret (none, some (.Wrap (.Wrap .ErrNoRows "userRepo.FindByEmail.QueryRowxContext")
        "userRepo.FindByEmail")) ∧
    (NewUserUC.Login compareExample "alice@example.com" "wrong" aliceSys).1 =
      .ret (none, some (.Wrap .ErrMismatchedHashAndPassword "user.ComparePasswords")) ∧
    (NewUserUC.Login compareExample "alice@example.com" "wrong" noUsersSys).1 ≠
      (NewUserUC.Login compareExample "alice@example.com" "wrong" aliceSys).1 :=
  login_failures_are_distinct NewUserUC compareExample "alice@example.com" "wrong"
    noUsersSys aliceSys (.Wrap .ErrNoRows "userRepo.FindByEmail.QueryRowxContext")
    .ErrMismatchedHashAndPassword { alice with Country := none } (by decide) (by decide)
    (by decide)

/-- C6 counterexample: a first `GetByID` has cached the snapshot of `alice`.
The invalidation issued by `userUC.Update` then fails and is only logged,
`Update` returns the updated record, and the following `userUC.GetByID` returns
the snapshot cached before the update (first name `Alice`) while the store
holds the updated row (first name `Alicia`). -/
theorem getByID_after_update_returns_stale_snapshot :
    warmedRedis.entries =
      [{ key := userRedisRepo.createKey (userUC.generateUserKey alice.UserID.String),
         val := .json (selectPublic alice), expireAt := some 3700 }] ∧
    (∃ out, (NewUserUC.Update { alice with FirstName := "Alicia" } staleSys).1
      = .ret (some out, none) ∧ out.FirstName = "Alicia") ∧
    ((NewUserUC.Update { alice with FirstName := "Alicia" } staleSys).2.st.db.users.map
      User.FirstName) = ["Alicia"] ∧
    (NewUserUC.GetByID alice.UserID
      (NewUserUC.Update { alice with FirstName := "Alicia" } staleSys).2).1
      = .ret (some (selectPublic alice), none) ∧
    (selectPublic alice).FirstName = "Alice" ∧
    (NewUserUC.Update { alice with FirstName := "Alicia" } staleSys).2.log =
      [.Update (normalized { alice with FirstName := "Alicia" }),
       .DeleteUserCtx (userUC.generateUserKey alice.UserID.String),
       .Errorf "userUC.Update.DeleteUserCtx: %s" (.Lib "dial tcp: connection refused")] := by
  refine ⟨by decide, ⟨_, rfl, by decide⟩, by decide, by decide, by decide, by decide⟩

/-- C6 (amended): if `userUC.Update` returns successfully and the cache
invalidation it issued succeeded, the following `userUC.GetByID` for that
identifier does not answer from the cache.  The store then holds a row for
the identifier carrying the values `Update` returned, and `GetByID` returns
that row (as `getUserQuery` selects it) when the store read goes through, and
the store's error when it does not. -/
theorem getByID_after_update_reads_store (user out : User) (w : Sys Env)
    (hupd : (NewUserUC.Update user w).1 = .ret (some out, none))
    (hinv : (userRedisRepo.DeleteUserCtx (userUC.generateUserKey user.UserID.String)
      w.st.redis).1 = none) :
    (∃ row,
      ((NewUserUC.Update user w).2.st.db.users.filter
        (fun r => r.UserID = user.UserID)).head? = some row ∧
      row.SanitizePassword = out ∧
      ((NewUserUC.Update user w).2.st.db.faults.headD none = none →
        (NewUserUC.GetByID user.UserID (NewUserUC.Update user w).2).1
          = .ret (some (selectPublic row), none))) ∧
    (∀ e, (NewUserUC.Update user w).2.st.db.faults.headD none = some e →
      (NewUserUC.GetByID user.UserID (NewUserUC.Update user w).2).1
        = .ret (none, some (.Wrap e "userRepo.GetByID.QueryRowxContext"))) := by
  obtain ⟨row, hrow, hout, hst⟩ := update_success_inv user out w hupd
  have hfirst := updateUserQuery_first (normalized user) row w.st.db hrow
  have hmiss := getByIDCtx_after_delete (userUC.generateUserKey user.UserID.String)
    w.st.redis hinv
  have hid : (normalized user).UserID = user.UserID := rfl
  rw [hid] at hfirst
  have hget : ∀ r : UserResult,
      (userRepo.GetByID user.UserID (NewUserUC.Update user w).2.st.db).1 = r →
      (NewUserUC.GetByID user.UserID (NewUserUC.Update user w).2).1 =
        match r.2 with
        | some err => .ret (none, some err)
        | none =>
          match r.1 with
          | none => .panic
          | some u => .ret (some u.SanitizePassword, none) := by
    intro r hr
    subst hr
    unfold userUC.GetByID
    simp only [invoke, NewUserUC, NewUserRepository, NewUserRedisRepo, onDB, onRedis,
      logIfErr_st]
    simp only [NewUserUC, NewUserRepository, NewUserRedisRepo] at hst
    rw [hst]
    simp only [hmiss]
    split
    · rfl
    · split <;> rfl
  refine ⟨⟨row, ?_, hout.symm, ?_⟩, ?_⟩
  · rw [hst]; exact hfirst
  · intro hok
    have hfirst' : ((NewUserUC.Update user w).2.st.db.users.filter
        (fun r => r.UserID = user.UserID)).head? = some row := by
      rw [hst]; exact hfirst
    rw [hget _ (userRepo_GetByID_first user.UserID row _ hfirst' hok)]
    rfl
  · intro e he
    rw [hget _ (userRepo_GetByID_fault user.UserID e _ he)]

/-- C6 witness: over the warmed cache and a working transport, `Update`
invalidates the snapshot and the following `GetByID` returns the updated row of
the store. -/
theorem getByID_after_update_reads_store_witness :
    (userRedisRepo.DeleteUserCtx (userUC.generateUserKey alice.UserID.String)
      warmedSys.st.redis).1 = none ∧
    ∃ row,
      ((NewUserUC.Update { alice with FirstName := "Alicia" } warmedSys).2.st.db.users.filter
        (fun r => r.UserID = alice.UserID)).head? = some row ∧
      row.FirstName = "Alicia" ∧
      (NewUserUC.GetByID alice.UserID
        (NewUserUC.Update { alice with FirstName := "Alicia" } warmedSys).2).1
        = .ret (some (selectPublic row), none) := by
  obtain ⟨⟨row, hrow, hout, hget⟩, _⟩ :=
    getByID_after_update_reads_store { alice with FirstName := "Alicia" } _ warmedSys
      rfl (by decide)
  refine ⟨by decide, row, hrow, ?_, hget (by decide)⟩
  have h : row.SanitizePassword.FirstName = "Alicia" := by rw [hout]; decide
  exact h

/-- C7: when the store's delete affects zero rows, `userRepo.Delete` returns
`sql.ErrNoRows` wrapped as `userRepo.Delete.rowsAffected`, `userUC.Delete`
returns that same error, and its only call is the store's `Delete`: no
`DeleteUserCtx` is issued and the cache is untouched. -/
theorem delete_missing_user_not_found (userID : UUID) (w : Sys Env)
    (h : (w.st.db.ExecContext (deleteUserQuery userID)).1 = .ok { RowsAffected := .ok 0 }) :
    (userRepo.Delete userID w.st.db).1 = some (.Wrap .ErrNoRows "userRepo.Delete.rowsAffected") ∧
    Err.Is (.Wrap .ErrNoRows "userRepo.Delete.rowsAffected") .ErrNoRows = true ∧
    (NewUserUC.Delete userID w).1 = .ret (userRepo.Delete userID w.st.db).1 ∧
    (NewUserUC.Delete userID w).2.log = w.log ++ [.Delete userID] ∧
    (NewUserUC.Delete userID w).2.st.redis = w.st.redis := by
  have hrepo : (userRepo.Delete userID w.st.db).1 =
      some (.Wrap .ErrNoRows "userRepo.Delete.rowsAffected") := by
    simp [userRepo.Delete, h]
  have hcall : (NewUserUC.userRepo.Delete userID w.st).1 =
      some (.Wrap .ErrNoRows "userRepo.Delete.rowsAffected") := by
    simp [NewUserUC, NewUserRepository, onDB, hrepo]
  refine ⟨hrepo, by decide, ?_, ?_, ?_⟩
  · simp [userUC.Delete, invoke, hcall, hrepo]
  · simp [userUC.Delete, invoke, hcall]
  · simp only [userUC.Delete, invoke, hcall]
    simp [NewUserUC, NewUserRepository, onDB]

/-- C7 witness: deleting an identifier that `aliceDB` does not hold. -/
theorem delete_missing_user_not_found_witness :
    (aliceCachedSys.st.db.ExecContext (deleteUserQuery strangerID)).1
      = .ok { RowsAffected := .ok 0 } ∧
    (userRepo.Delete strangerID aliceCachedSys.st.db).1
      = some (.Wrap .ErrNoRows "userRepo.Delete.rowsAffected") ∧
    Err.Is (.Wrap .ErrNoRows "userRepo.Delete.rowsAffected") .ErrNoRows = true ∧
    (NewUserUC.Delete strangerID aliceCachedSys).1
      = .ret (userRepo.Delete strangerID aliceCachedSys.st.db).1 ∧
    (NewUserUC.Delete strangerID aliceCachedSys).2.log
      = aliceCachedSys.log ++ [.Delete strangerID] ∧
    (NewUserUC.Delete strangerID aliceCachedSys).2.st.redis = aliceCachedSys.st.redis :=
  ⟨rfl, delete_missing_user_not_found strangerID aliceCachedSys rfl⟩

/-- C8 counterexample: on an empty server with a working transport,
`userRedisRepo.GetByIDCtx` reports the absent key with the error `redis.Nil`,
not with "no user and no error". -/
theorem getByIDCtx_miss_returns_error :
    (emptyRedis.Get (userRedisRepo.createKey (userUC.generateUserKey alice.UserID.String))).1
      = .error .RedisNil ∧
    (userRedisRepo.GetByIDCtx (userUC.generateUserKey alice.UserID.String) emptyRedis).1
      = (none, some .RedisNil) ∧
    ¬ (userRedisRepo.GetByIDCtx (userUC.generateUserKey alice.UserID.String) emptyRedis).1
      = (none, none) := by
  refine ⟨rfl, by decide, by decide⟩

/-- C8 (amended): for every key and server state, `userRedisRepo.GetByIDCtx`
answers by what the client's `Get` returns.  An absent key (`redis.Nil`) is
reported with no user and the error `redis.Nil`; any other failure of the
command is reported with no user and `ErrNotFound`, which differs from the miss
outcome; a present value that decodes is returned with no error. -/
theorem getByIDCtx_outcomes (key : String) (rc : RedisClient) :
    ((rc.Get (userRedisRepo.createKey key)).1 = .error .RedisNil →
      (userRedisRepo.GetByIDCtx key rc).1 = (none, some .RedisNil)) ∧
    (∀ e, e ≠ .RedisNil → (rc.Get (userRedisRepo.createKey key)).1 = .error e →
      (userRedisRepo.GetByIDCtx key rc).1 = (none, some .ErrNotFound) ∧
      (userRedisRepo.GetByIDCtx key rc).1 ≠ (none, some .RedisNil)) ∧
    (∀ userBytes user, (rc.Get (userRedisRepo.createKey key)).1 = .ok userBytes →
      Unmarshal userBytes = .ok user →
      (userRedisRepo.GetByIDCtx key rc).1 = (some user, none)) := by
  refine ⟨?_, ?_, ?_⟩
  · intro h
    simp [userRedisRepo.GetByIDCtx, h]
  · intro e hne h
    simp [userRedisRepo.GetByIDCtx, h, hne]
  · intro userBytes user h hu
    simp [userRedisRepo.GetByIDCtx, h, hu]

/-- C8 witness: an absent key, a failing transport and a present snapshot. -/
theorem getByIDCtx_outcomes_witness :
    (userRedisRepo.GetByIDCtx (userUC.generateUserKey alice.UserID.String) emptyRedis).1
      = (none, some .RedisNil) ∧
    ((userRedisRepo.GetByIDCtx (userUC.generateUserKey alice.UserID.String) brokenRedis).1
      = (none, some .ErrNotFound) ∧
     (userRedisRepo.GetByIDCtx (userUC.generateUserKey alice.UserID.String) brokenRedis).1
      ≠ (none, some .RedisNil)) ∧
    (userRedisRepo.GetByIDCtx (userUC.generateUserKey alice.UserID.String) aliceCachedRedis).1
      = (some alice, none) :=
  ⟨(getByIDCtx_outcomes (userUC.generateUserKey alice.UserID.String) emptyRedis).1 rfl,
   (getByIDCtx_outcomes (userUC.generateUserKey alice.UserID.String) brokenRedis).2.1
      (.Lib "dial tcp: connection refused") (by decide) rfl,
   (getByIDCtx_outcomes (userUC.generateUserKey alice.UserID.String) aliceCachedRedis).2.2
      (.json alice) alice rfl rfl⟩

/-- C9: when the cache returns a user for the identifier's key,
`userUC.GetByID` returns exactly that user; its only call is that cache read
(followed by a log line if the read also carried an error), so the store is
not read and the cache is not written. -/
theorem getByID_hit_returns_cached {σ : Type} (uc : userUC σ) (userID : UUID)
    (w : Sys σ) (cachedUser : User)
    (h : (uc.redisRepo.GetByIDCtx (userUC.generateUserKey userID.String) w.st).1.1
      = some cachedUser) :
    (uc.GetByID userID w).1 = .ret (some cachedUser, none) ∧
    (uc.GetByID userID w).2.log =
      w.log ++ [.GetByIDCtx (userUC.generateUserKey userID.String)] ++
        errLines "userUC.redisRepo.GetByIDCtx: %v"
          (uc.redisRepo.GetByIDCtx (userUC.generateUserKey userID.String) w.st).1.2 ∧
    (uc.GetByID userID w).2.st =
      (uc.redisRepo.GetByIDCtx (userUC.generateUserKey userID.String) w.st).2 := by
  refine ⟨?_, ?_, ?_⟩
  · simp [userUC.GetByID, invoke, h]
  · simp only [userUC.GetByID, invoke, h]
    cases (uc.redisRepo.GetByIDCtx (userUC.generateUserKey userID.String) w.st).1.2 <;>
      simp [logIfErr, errLines, Errorf]
  · simp only [userUC.GetByID, invoke, h]
    cases (uc.redisRepo.GetByIDCtx (userUC.generateUserKey userID.String) w.st).1.2 <;>
      simp [logIfErr, Errorf]

/-- C9 witness: a hit on the snapshot of `alice`; the server and the database
are left as they were. -/
theorem getByID_hit_returns_cached_witness :
    (NewUserUC.redisRepo.GetByIDCtx (userUC.generateUserKey alice.UserID.String)
      aliceCachedSys.st).1.1 = some alice ∧
    ((NewUserUC.GetByID alice.UserID aliceCachedSys).1 = .ret (some alice, none) ∧
     (NewUserUC.GetByID alice.UserID aliceCachedSys).2.log =
      aliceCachedSys.log ++ [.GetByIDCtx (userUC.generateUserKey alice.UserID.String)] ++
        errLines "userUC.redisRepo.GetByIDCtx: %v"
          (NewUserUC.redisRepo.GetByIDCtx (userUC.generateUserKey alice.UserID.String)
            aliceCachedSys.st).1.2 ∧
     (NewUserUC.GetByID alice.UserID aliceCachedSys).2.st =
      (NewUserUC.redisRepo.GetByIDCtx (userUC.generateUserKey alice.UserID.String)
        aliceCachedSys.st).2) :=
  ⟨by decide, getByID_hit_returns_cached NewUserUC alice.UserID aliceCachedSys alice (by decide)⟩

/-- C10: when the cache returns no user for the identifier's key,
`userUC.GetByID` reads the store.  If the store returns a user without error,
that user is written to the cache under the identifier's key with a duration of
3600 seconds (as returned by the store, before the password is cleared) and is
returned with the password cleared, which is the store's user itself when it
carries none.  If the store returns an error, that error is returned and the
trace ends with the store read: nothing is written to the cache. -/
theorem getByID_miss_reads_store {σ : Type} (uc : userUC σ) (userID : UUID) (w : Sys σ)
    (hmiss : (uc.redisRepo.GetByIDCtx (userUC.generateUserKey userID.String) w.st).1.1 = none) :
    (∀ user,
      (uc.userRepo.GetByID userID
        (uc.redisRepo.GetByIDCtx (userUC.generateUserKey userID.String) w.st).2).1
        = (some user, none) →
      (uc.GetByID userID w).1 = .ret (some user.SanitizePassword, none) ∧
      (user.Password = "" → (uc.GetByID userID w).1 = .ret (some user, none)) ∧
      (uc.GetByID userID w).2.log =
        w.log ++ [.GetByIDCtx (userUC.generateUserKey userID.String)] ++
          errLines "userUC.redisRepo.GetByIDCtx: %v"
            (uc.redisRepo.GetByIDCtx (userUC.generateUserKey userID.String) w.st).1.2 ++
          [.GetByID userID,
           .SetUserCtx (userUC.generateUserKey userID.String) 3600 (some user)] ++
          errLines "userUC.redisRepo.SetUserCtx: %v"
            (uc.redisRepo.SetUserCtx (userUC.generateUserKey userID.String) 3600 (some user)
              (uc.userRepo.GetByID userID
                (uc.redisRepo.GetByIDCtx (userUC.generateUserKey userID.String) w.st).2).2).1 ∧
      (uc.GetByID userID w).2.st =
        (uc.redisRepo.SetUserCtx (userUC.generateUserKey userID.String) 3600 (some user)
          (uc.userRepo.GetByID userID
            (uc.redisRepo.GetByIDCtx (userUC.generateUserKey userID.String) w.st).2).2).2) ∧
    (∀ err,
      (uc.userRepo.GetByID userID
        (uc.redisRepo.GetByIDCtx (userUC.generateUserKey userID.String) w.st).2).1.2
        = some err →
      (uc.GetByID userID w).1 = .ret (none, some err) ∧
      (uc.GetByID userID w).2.log =
        w.log ++ [.GetByIDCtx (userUC.generateUserKey userID.String)] ++
          errLines "userUC.redisRepo.GetByIDCtx: %v"
            (uc.redisRepo.GetByIDCtx (userUC.generateUserKey userID.String) w.st).1.2 ++
          [.GetByID userID] ∧
      (uc.GetByID userID w).2.st =
        (uc.userRepo.GetByID userID
          (uc.redisRepo.GetByIDCtx (userUC.generateUserKey userID.String) w.st).2).2) := by
  refine ⟨?_, ?_⟩
  · intro user hstore
    have hval : (uc.GetByID userID w).1 = .ret (some user.SanitizePassword, none) := by
      simp [userUC.GetByID, invoke, hmiss, logIfErr_st, hstore]
    refine ⟨hval, ?_, ?_, ?_⟩
    · intro hpw
      rw [hval]
      have : user.SanitizePassword = user := by
        cases user
        simp only [User.SanitizePassword] at *
        simp_all
      rw [this]
    · simp [userUC.GetByID, invoke, hmiss, logIfErr_st, logIfErr_log, hstore,
        userByIdCacheDuration]
    · simp [userUC.GetByID, invoke, hmiss, logIfErr_st, hstore, userByIdCacheDuration]
  · intro err hstore
    refine ⟨?_, ?_, ?_⟩
    · simp [userUC.GetByID, invoke, hmiss, logIfErr_st, hstore]
    · simp [userUC.GetByID, invoke, hmiss, logIfErr_st, logIfErr_log, hstore]
    · simp [userUC.GetByID, invoke, hmiss, logIfErr_st, hstore]

/-- C10 witness: a miss for `alice` over an empty cache.  The store's record is
returned and is now on the server with expiration `now + 3600`; with the store
down the store's error is returned and the server stays empty. -/
theorem getByID_miss_reads_store_witness :
    (NewUserUC.redisRepo.GetByIDCtx (userUC.generateUserKey alice.UserID.String)
      aliceSys.st).1.1 = none ∧
    (NewUserUC.GetByID alice.UserID aliceSys).1 = .ret (some (selectPublic alice), none) ∧
    (NewUserUC.GetByID alice.UserID aliceSys).2.st.redis.entries =
      [{ key := userRedisRepo.createKey (userUC.generateUserKey alice.UserID.String),
         val := .json (selectPublic alice), expireAt := some (100 + 3600) }] ∧
    (NewUserUC.GetByID alice.UserID storeDownSys).1 =
      .ret (none, some (.Wrap (.Lib "pq: connection refused")
        "userRepo.GetByID.QueryRowxContext")) ∧
    (NewUserUC.GetByID alice.UserID storeDownSys).2.st.redis.entries = [] :=
  ⟨by decide,
   ((getByID_miss_reads_store NewUserUC alice.UserID aliceSys (by decide)).1
      (selectPublic alice) (by decide)).2.1 (by decide),
   by decide,
   ((getByID_miss_reads_store NewUserUC alice.UserID storeDownSys (by decide)).2
      (.Wrap (.Lib "pq: connection refused") "userRepo.GetByID.QueryRowxContext")
      (by decide)).1,
   by decide⟩

/-- C11: `userUC.Update` and `userUC.UpdateRole` over any store and cache.  If
the store write returns a user without error, the calls made are the store
write and one `DeleteUserCtx` for the key of the user's identifier (plus a log
line if that fails), and the sanitized user is returned.  If the store write
returns an error, that error is returned and the store write is the only call.
So the invalidation is issued exactly when the store write succeeded, and
`SetUserCtx` is never called. -/
theorem update_invalidates_iff_store_write_succeeded {σ : Type} (uc : userUC σ)
    (user : User) (w : Sys σ) :
    ((∀ updated, (uc.userRepo.Update (normalized user) w.st).1 = (some updated, none) →
        (uc.Update user w).1 = .ret (some updated.SanitizePassword, none) ∧
        newCalls w (uc.Update user w).2 =
          [.Update (normalized user),
           .DeleteUserCtx (userUC.generateUserKey user.UserID.String)] ++
          errLines "userUC.Update.DeleteUserCtx: %s"
            (uc.redisRepo.DeleteUserCtx (userUC.generateUserKey user.UserID.String)
              (uc.userRepo.Update (normalized user) w.st).2).1) ∧
     (∀ err, (uc.userRepo.Update (normalized user) w.st).1.2 = some err →
        (uc.Update user w).1 = .ret (none, some err) ∧
        newCalls w (uc.Update user w).2 = [.Update (normalized user)]) ∧
     (Call.DeleteUserCtx (userUC.generateUserKey user.UserID.String)
          ∈ newCalls w (uc.Update user w).2 ↔
        ∃ updated, (uc.userRepo.Update (normalized user) w.st).1 = (some updated, none)) ∧
     (∀ key seconds value, Call.SetUserCtx key seconds value ∉ newCalls w (uc.Update user w).2)) ∧
    ((∀ updated, (uc.userRepo.UpdateRole (normalized user) w.st).1 = (some updated, none) →
        (uc.UpdateRole user w).1 = .ret (some updated.SanitizePassword, none) ∧
        newCalls w (uc.UpdateRole user w).2 =
          [.UpdateRole (normalized user),
           .DeleteUserCtx (userUC.generateUserKey user.UserID.String)] ++
          errLines "userUC.UpdateRole.DeleteUserCtx: %s"
            (uc.redisRepo.DeleteUserCtx (userUC.generateUserKey user.UserID.String)
              (uc.userRepo.UpdateRole (normalized user) w.st).2).1) ∧
     (∀ err, (uc.userRepo.UpdateRole (normalized user) w.st).1.2 = some err →
        (uc.UpdateRole user w).1 = .ret (none, some err) ∧
        newCalls w (uc.UpdateRole user w).2 = [.UpdateRole (normalized user)]) ∧
     (Call.DeleteUserCtx (userUC.generateUserKey user.UserID.String)
          ∈ newCalls w (uc.UpdateRole user w).2 ↔
        ∃ updated, (uc.userRepo.UpdateRole (normalized user) w.st).1 = (some updated, none)) ∧
     (∀ key seconds value,
        Call.SetUserCtx key seconds value ∉ newCalls w (uc.UpdateRole user w).2)) := by
  constructor
  · have hlog : (uc.Update user w).2.log = w.log ++
        (match (uc.userRepo.Update (normalized user) w.st).1 with
         | (some _, none) =>
           [.Update (normalized user),
            .DeleteUserCtx (userUC.generateUserKey user.UserID.String)] ++
           errLines "userUC.Update.DeleteUserCtx: %s"
             (uc.redisRepo.DeleteUserCtx (userUC.generateUserKey user.UserID.String)
               (uc.userRepo.Update (normalized user) w.st).2).1
         | _ => [.Update (normalized user)]) := by
      simp only [userUC.Update, invoke, normalized]
      rcases h : (uc.userRepo.Update _ w.st).1 with ⟨_ | u, _ | e⟩ <;>
        simp [h, logIfErr_log]
    have hnew := newCalls_of_append w _ _ hlog
    refine ⟨?_, ?_, ?_, ?_⟩
    · intro updated h
      refine ⟨?_, ?_⟩
      · simp only [normalized] at h
        simp [userUC.Update, invoke, h]
        rfl
      · rw [hnew, h]
    · intro err h
      rcases hr : (uc.userRepo.Update (normalized user) w.st).1 with ⟨u, e⟩
      rw [hr] at h
      simp only at h
      subst h
      refine ⟨?_, ?_⟩
      · simp only [normalized] at hr
        simp [userUC.Update, invoke, hr]
      · rw [hnew, hr]
        cases u <;> rfl
    · rw [hnew]
      rcases hr : (uc.userRepo.Update (normalized user) w.st).1 with ⟨_ | u, _ | e⟩ <;> simp
    · intro key seconds value
      rw [hnew]
      rcases hr : (uc.userRepo.Update (normalized user) w.st).1 with ⟨_ | u, _ | e⟩ <;>
        simp [errLines]
      split <;> simp
  · have hlog : (uc.UpdateRole user w).2.log = w.log ++
        (match (uc.userRepo.UpdateRole (normalized user) w.st).1 with
         | (some _, none) =>
           [.UpdateRole (normalized user),
            .DeleteUserCtx (userUC.generateUserKey user.UserID.String)] ++
           errLines "userUC.UpdateRole.DeleteUserCtx: %s"
             (uc.redisRepo.DeleteUserCtx (userUC.generateUserKey user.UserID.String)
               (uc.userRepo.UpdateRole (normalized user) w.st).2).1
         | _ => [.UpdateRole (normalized user)]) := by
      simp only [userUC.UpdateRole, invoke, normalized]
      rcases h : (uc.userRepo.UpdateRole _ w.st).1 with ⟨_ | u, _ | e⟩ <;>
        simp [h, logIfErr_log]
    have hnew := newCalls_of_append w _ _ hlog
    refine ⟨?_, ?_, ?_, ?_⟩
    · intro updated h
      refine ⟨?_, ?_⟩
      · simp only [normalized] at h
        simp [userUC.UpdateRole, invoke, h]
        rfl
      · rw [hnew, h]
    · intro err h
      rcases hr : (uc.userRepo.UpdateRole (normalized user) w.st).1 with ⟨u, e⟩
      rw [hr] at h
      simp only at h
      subst h
      refine ⟨?_, ?_⟩
      · simp only [normalized] at hr
        simp [userUC.UpdateRole, invoke, hr]
      · rw [hnew, hr]
        cases u <;> rfl
    · rw [hnew]
      rcases hr : (uc.userRepo.UpdateRole (normalized user) w.st).1 with ⟨_ | u, _ | e⟩ <;> simp
    · intro key seconds value
      rw [hnew]
      rcases hr : (uc.userRepo.UpdateRole (normalized user) w.st).1 with ⟨_ | u, _ | e⟩ <;>
        simp [errLines]
      split <;> simp

/-- C11 witness: over the warmed cache the update of `alice` is followed by the
invalidation of her key, which empties the cache; with the store down the
store's error is returned and the store write is the only call. -/
theorem update_invalidates_iff_store_write_succeeded_witness :
    newCalls warmedSys (NewUserUC.Update { alice with FirstName := "Alicia" } warmedSys).2 =
      [.Update (normalized { alice with FirstName := "Alicia" }),
       .DeleteUserCtx (userUC.generateUserKey alice.UserID.String)] ∧
    (NewUserUC.Update { alice with FirstName := "Alicia" } warmedSys).2.st.redis.entries = [] ∧
    (NewUserUC.Update { alice with FirstName := "Alicia" } storeDownSys).1 =
      .ret (none, some (.Wrap (.Lib "pq: connection refused") "userRepo.Update.GetContext")) ∧
    newCalls storeDownSys (NewUserUC.Update { alice with FirstName := "Alicia" } storeDownSys).2 =
      [.Update (normalized { alice with FirstName := "Alicia" })] ∧
    newCalls warmedSys (NewUserUC.UpdateRole { alice with Role := some "admin" } warmedSys).2 =
      [.UpdateRole (normalized { alice with Role := some "admin" }),
       .DeleteUserCtx (userUC.generateUserKey alice.UserID.String)] :=
  ⟨((update_invalidates_iff_store_write_succeeded NewUserUC { alice with FirstName := "Alicia" }
      warmedSys).1.1 _ rfl).2,
   by decide,
   ((update_invalidates_iff_store_write_succeeded NewUserUC { alice with FirstName := "Alicia" }
      storeDownSys).1.2.1 _ rfl).1,
   ((update_invalidates_iff_store_write_succeeded NewUserUC { alice with FirstName := "Alicia" }
      storeDownSys).1.2.1 _ rfl).2,
   ((update_invalidates_iff_store_write_succeeded NewUserUC { alice with Role := some "admin" }
      warmedSys).2.1 _ rfl).2⟩

/-- C12: cache failures do not reach the caller.  Two orchestrators over the
same store and arbitrary caches (so one whose invalidation succeeds and one
whose invalidation fails) return the same result from `Update`, `UpdateRole`
and `Delete`; if their caches answer reads alike, they return the same result
from `GetByID`, whatever the cache population does; and a `GetByID` whose cache
read fails returns what the store read returns: the store's error, or the
store's user (sanitized). -/
theorem cache_failures_do_not_propagate {σ : Type} (uc₁ uc₂ : userUC σ) (user : User)
    (userID : UUID) (w : Sys σ) (hstore : uc₁.userRepo = uc₂.userRepo) :
    (uc₁.Update user w).1 = (uc₂.Update user w).1 ∧
    (uc₁.UpdateRole user w).1 = (uc₂.UpdateRole user w).1 ∧
    (uc₁.Delete userID w).1 = (uc₂.Delete userID w).1 ∧
    (uc₁.redisRepo.GetByIDCtx = uc₂.redisRepo.GetByIDCtx →
      (uc₁.GetByID userID w).1 = (uc₂.GetByID userID w).1) ∧
    (∀ e, (uc₁.redisRepo.GetByIDCtx (userUC.generateUserKey userID.String) w.st).1
        = (none, some e) →
      (uc₁.GetByID userID w).1 =
        match (uc₁.userRepo.GetByID userID
          (uc₁.redisRepo.GetByIDCtx (userUC.generateUserKey userID.String) w.st).2).1 with
        | (_, some err) => .ret (none, some err)
        | (some found, none) => .ret (some found.SanitizePassword, none)
        | (none, none) => .panic) := by
  refine ⟨?_, ?_, ?_, ?_, ?_⟩
  · simp only [userUC.Update, invoke, hstore]
    split
    · rfl
    · split <;> rfl
  · simp only [userUC.UpdateRole, invoke, hstore]
    split
    · rfl
    · split <;> rfl
  · simp only [userUC.Delete, invoke, hstore]
    split <;> rfl
  · intro hread
    simp only [userUC.GetByID, invoke, hstore, hread, logIfErr_st]
    split
    · rfl
    · split
      · rfl
      · split <;> rfl
  · intro e hfail
    simp only [userUC.GetByID, invoke, hfail, logIfErr_st]
    rcases hr : (uc₁.userRepo.GetByID userID
      (uc₁.redisRepo.GetByIDCtx (userUC.generateUserKey userID.String) w.st).2).1
      with ⟨_ | u, _ | err⟩ <;> simp [hr]

/-- C12 witness: the update of `alice` returns the same record over the working
cache and over a cache that is down; a read returns the same record whether
the snapshot can be written or not; and with the cache read failing the read
returns the store's record. -/
theorem cache_failures_do_not_propagate_witness :
    (NewUserUC.Update { alice with FirstName := "Alicia" } warmedSys).1 =
      ({ NewUserUC with redisRepo := downRedisRepo }.Update
        { alice with FirstName := "Alicia" } warmedSys).1 ∧
    (∃ out, (NewUserUC.Update { alice with FirstName := "Alicia" } warmedSys).1 =
      .ret (some out, none) ∧ out.FirstName = "Alicia") ∧
    (NewUserUC.GetByID alice.UserID aliceSys).1 =
      ({ NewUserUC with redisRepo := noFillRedisRepo }.GetByID alice.UserID aliceSys).1 ∧
    ({ NewUserUC with redisRepo := downRedisRepo }.GetByID alice.UserID warmedSys).1 =
      .ret (some (selectPublic alice), none) :=
  ⟨(cache_failures_do_not_propagate NewUserUC { NewUserUC with redisRepo := downRedisRepo }
      { alice with FirstName := "Alicia" } alice.UserID warmedSys rfl).1,
   ⟨_, rfl, by decide⟩,
   (cache_failures_do_not_propagate NewUserUC { NewUserUC with redisRepo := noFillRedisRepo }
      alice alice.UserID aliceSys rfl).2.2.2.1 rfl,
   (cache_failures_do_not_propagate { NewUserUC with redisRepo := downRedisRepo } NewUserUC
      alice alice.UserID warmedSys rfl).2.2.2.2 .ErrNotFound rfl⟩

/-- C13: round trip.  If `CreateSession` with a positive expiration returns a
token without error and the transport carries the next command, then
`GetSessionByID` for that token, called on the store as `CreateSession` left
it, returns without error the session of the user given to `CreateSession`. -/
theorem session_round_trip (rc : RedisClient) (newID : UUID) (sess : Session) (expire : Int)
    (hpos : 0 < expire)
    (hcreate : (SessionRepo.CreateSession newID sess expire rc).1.2 = none)
    (hup : (SessionRepo.CreateSession newID sess expire rc).2.faults.headD none = none) :
    (SessionRepo.GetSessionByID (SessionRepo.CreateSession newID sess expire rc).1.1
      (SessionRepo.CreateSession newID sess expire rc).2).1 =
      (some { SessionID := newID.String, UserID := sess.UserID }, none) ∧
    (∃ got, (SessionRepo.GetSessionByID (SessionRepo.CreateSession newID sess expire rc).1.1
      (SessionRepo.CreateSession newID sess expire rc).2).1.1 = some got ∧
      got.UserID = sess.UserID) := by
  obtain ⟨htok, hnow, -, rest, hrest, hent⟩ := createSession_ok newID sess expire rc hcreate
  have hget := getSessionByID_head _ _ _ rest _ hent hrest hup
  have hlive : Entry.live (SessionRepo.CreateSession newID sess expire rc).2.now
      { key := SessionRepo.createKey newID.String,
        val := .session { SessionID := newID.String, UserID := sess.UserID },
        expireAt :=
          if 0 < durationOfSeconds expire then
            some (expireAfter rc.now (durationOfSeconds expire))
          else none } = true := by
    have _ := hpos
    by_cases hd : 0 < durationOfSeconds expire
    · simp [Entry.live, hd, hnow, expireAfter_gt rc.now _ hd]
    · simp [Entry.live, hd]
  rw [htok, hget, if_pos hlive]
  exact ⟨rfl, _, rfl, rfl⟩

/-- C13 witness: a session for `alice` with an expiration of two seconds on an
empty store is read back at once. -/
theorem session_round_trip_witness :
    (SessionRepo.CreateSession freshID aliceSession 2 emptyRedis).1 = (aliceToken, none) ∧
    (SessionRepo.GetSessionByID (SessionRepo.CreateSession freshID aliceSession 2 emptyRedis).1.1
      (SessionRepo.CreateSession freshID aliceSession 2 emptyRedis).2).1 =
      (some { SessionID := freshID.String, UserID := aliceSession.UserID }, none) :=
  ⟨by decide,
   (session_round_trip emptyRedis freshID aliceSession 2 (by decide) (by decide) (by decide)).1⟩

/-- C14 counterexample: the token returned for `freshID` is the key
`api-session:: 123e4567-…`, while the stored record carries the session
identifier `123e4567-…` without the key's leading part. -/
theorem createSession_token_differs_from_sessionID :
    (SessionRepo.CreateSession freshID aliceSession 2 emptyRedis).1 = (aliceToken, none) ∧
    (SessionRepo.CreateSession freshID aliceSession 2 emptyRedis).2.entries =
      [{ key := aliceToken,
         val := .session { SessionID := "123e4567-e89b-42d3-a456-426614174000",
                           UserID := alice.UserID },
         expireAt := some 102 }] ∧
    ¬ (SessionRepo.CreateSession freshID aliceSession 2 emptyRedis).1.1 =
      "123e4567-e89b-42d3-a456-426614174000" := by
  refine ⟨by decide, by decide, by decide⟩

/-- C14 (amended): for every successful `CreateSession`, the token returned to
the caller is the key under which the record is stored, that is
`createKey` of the `SessionID` embedded in the stored record (the session
identifier preceded by `api-session:: `); it never equals that `SessionID`. -/
theorem createSession_token_is_key (rc : RedisClient) (newID : UUID) (sess : Session)
    (expire : Int) (h : (SessionRepo.CreateSession newID sess expire rc).1.2 = none) :
    ∃ stored : Session, ∃ deadline,
      (SessionRepo.CreateSession newID sess expire rc).2.entries.head? =
        some { key := (SessionRepo.CreateSession newID sess expire rc).1.1,
               val := .session stored, expireAt := deadline } ∧
      stored.UserID = sess.UserID ∧
      (SessionRepo.CreateSession newID sess expire rc).1.1 =
        SessionRepo.createKey stored.SessionID ∧
      (SessionRepo.CreateSession newID sess expire rc).1.1 =
        "api-session:" ++ ": " ++ stored.SessionID ∧
      (SessionRepo.CreateSession newID sess expire rc).1.1 ≠ stored.SessionID := by
  obtain ⟨htok, -, -, rest, -, hent⟩ := createSession_ok newID sess expire rc h
  refine ⟨{ SessionID := newID.String, UserID := sess.UserID },
    (if 0 < durationOfSeconds expire then some (expireAfter rc.now (durationOfSeconds expire))
      else none), ?_, rfl, htok, ?_, ?_⟩
  · rw [hent, htok]; rfl
  · rw [htok]; rfl
  · rw [htok]
    intro heq
    have hlen := congrArg String.length heq
    simp [SessionRepo.createKey, Sprintf, SessionRepo.basePrefix, String.length_append] at hlen
    exact absurd hlen (by decide)

/-- C14 witness: the session created for `alice`. -/
theorem createSession_token_is_key_witness :
    (SessionRepo.CreateSession freshID aliceSession 2 emptyRedis).1.2 = none ∧
    ∃ stored : Session, ∃ deadline,
      (SessionRepo.CreateSession freshID aliceSession 2 emptyRedis).2.entries.head? =
        some { key := (SessionRepo.CreateSession freshID aliceSession 2 emptyRedis).1.1,
               val := .session stored, expireAt := deadline } ∧
      stored.UserID = aliceSession.UserID ∧
      (SessionRepo.CreateSession freshID aliceSession 2 emptyRedis).1.1 =
        SessionRepo.createKey stored.SessionID ∧
      (SessionRepo.CreateSession freshID aliceSession 2 emptyRedis).1.1 =
        "api-session:" ++ ": " ++ stored.SessionID ∧
      (SessionRepo.CreateSession freshID aliceSession 2 emptyRedis).1.1 ≠ stored.SessionID :=
  ⟨by decide, createSession_token_is_key emptyRedis freshID aliceSession 2 (by decide)⟩

/-- C15 counterexample: a session created at time 100 with the positive
expiration of 9223372037 seconds.  The product
`time.Second * time.Duration(expire)` wraps to a negative duration, so the
record is stored without expiry, and `GetSessionByID` still returns the session
at time `100 + 9223372037`, where the claim reports it not found. -/
theorem session_with_wrapped_expiry_never_expires :
    (0 : Int) < 9223372037 ∧
    durationOfSeconds 9223372037 = -9223372036709551616 ∧
    (SessionRepo.CreateSession freshID aliceSession 9223372037 emptyRedis).1 =
      (aliceToken, none) ∧
    (SessionRepo.CreateSession freshID aliceSession 9223372037 emptyRedis).2.entries =
      [{ key := aliceToken,
         val := .session { SessionID := freshID.String, UserID := alice.UserID },
         expireAt := none }] ∧
    (runEvents [.wait 9223372037]
      (SessionRepo.CreateSession freshID aliceSession 9223372037 emptyRedis).2).now =
      100 + 9223372037 ∧
    (SessionRepo.GetSessionByID aliceToken
      (runEvents [.wait 9223372037]
        (SessionRepo.CreateSession freshID aliceSession 9223372037 emptyRedis).2)).1 =
      (some { SessionID := freshID.String, UserID := alice.UserID }, none) := by
  refine ⟨by decide, by decide, by decide, by decide, by decide, by decide⟩

/-- C15 (amended): a session created at time `rc.now` with an expiration of
`expire` seconds, `0 < expire ≤ 9223372036` (the numbers of seconds a
`time.Duration` holds), over a working transport.  After any sequence of waits
and `GetSessionByID` calls, the session is returned as long as the clock is
before `rc.now + expire` and is reported not found (`redis.Nil`) from then on:
the reads in between never move the expiry. -/
theorem session_expiry_is_absolute (rc : RedisClient) (newID : UUID) (sess : Session)
    (expire : Int) (events : List SessionEvent) (hpos : 0 < expire)
    (hmax : expire ≤ 9223372036) (hup : rc.faults = []) :
    (SessionRepo.CreateSession newID sess expire rc).1.2 = none ∧
    rc.now ≤ (runEvents events (SessionRepo.CreateSession newID sess expire rc).2).now ∧
    ((runEvents events (SessionRepo.CreateSession newID sess expire rc).2).now
        < rc.now + expire.toNat →
      (SessionRepo.GetSessionByID (SessionRepo.CreateSession newID sess expire rc).1.1
        (runEvents events (SessionRepo.CreateSession newID sess expire rc).2)).1 =
        (some { SessionID := newID.String, UserID := sess.UserID }, none)) ∧
    (rc.now + expire.toNat
        ≤ (runEvents events (SessionRepo.CreateSession newID sess expire rc).2).now →
      (SessionRepo.GetSessionByID (SessionRepo.CreateSession newID sess expire rc).1.1
        (runEvents events (SessionRepo.CreateSession newID sess expire rc).2)).1 =
        (none, some (.Wrap .RedisNil "SessionRep.GetSessionByID.redisClient.Get"))) := by
  have hcreate : (SessionRepo.CreateSession newID sess expire rc).1.2 = none := by
    simp [SessionRepo.CreateSession, MarshalSession, RedisClient.Set, RedisClient.run, hup]
  obtain ⟨htok, hnow, hfaults, rest, hrest, hent⟩ := createSession_ok newID sess expire rc hcreate
  have hdur : durationOfSeconds expire = 1000000000 * expire :=
    durationOfSeconds_small expire hpos hmax
  have hdpos : (0 : Int) < 1000000000 * expire := by omega
  rw [hdur, if_pos hdpos, expireAfter_small rc.now expire hpos] at hent
  have hup' : (SessionRepo.CreateSession newID sess expire rc).2.faults = [] := by
    rw [hfaults, hup]; rfl
  obtain ⟨k, hk⟩ := runEvents_inv events _ hup'
  have hget := getSessionByID_head (SessionRepo.createKey newID.String)
    { SessionID := newID.String, UserID := sess.UserID }
    (some (rc.now + expire.toNat)) rest
    (runEvents events (SessionRepo.CreateSession newID sess expire rc).2)
    (by rw [hk]; exact hent) hrest (by rw [hk]; simp [hup'])
  have hclock : (runEvents events (SessionRepo.CreateSession newID sess expire rc).2).now
      = rc.now + k := by
    rw [hk, ← hnow]
  refine ⟨hcreate, by omega, ?_, ?_⟩
  · intro hlt
    rw [htok, hget]
    simp [Entry.live, hlt]
  · intro hge
    rw [htok, hget]
    have : ¬ (runEvents events (SessionRepo.CreateSession newID sess expire rc).2).now
        < rc.now + expire.toNat := by omega
    simp [Entry.live, this]

/-- C15 witness: a session created at time 100 with an expiration of two
seconds is read back at time 101 and is not found at time 103, with reads in
between. -/
theorem session_expiry_is_absolute_witness :
    (runEvents [.get aliceToken, .wait 1, .get aliceToken]
      (SessionRepo.CreateSession freshID aliceSession 2 emptyRedis).2).now = 100 + 1 ∧
    (SessionRepo.GetSessionByID (SessionRepo.CreateSession freshID aliceSession 2 emptyRedis).1.1
      (runEvents [.get aliceToken, .wait 1, .get aliceToken]
        (SessionRepo.CreateSession freshID aliceSession 2 emptyRedis).2)).1 =
      (some { SessionID := freshID.String, UserID := aliceSession.UserID }, none) ∧
    (runEvents [.get aliceToken, .wait 1, .get aliceToken, .wait 2, .get aliceToken]
      (SessionRepo.CreateSession freshID aliceSession 2 emptyRedis).2).now = 100 + 3 ∧
    (SessionRepo.GetSessionByID (SessionRepo.CreateSession freshID aliceSession 2 emptyRedis).1.1
      (runEvents [.get aliceToken, .wait 1, .get aliceToken, .wait 2, .get aliceToken]
        (SessionRepo.CreateSession freshID aliceSession 2 emptyRedis).2)).1 =
      (none, some (.Wrap .RedisNil "SessionRep.GetSessionByID.redisClient.Get")) :=
  ⟨by decide,
   (session_expiry_is_absolute emptyRedis freshID aliceSession 2
      [.get aliceToken, .wait 1, .get aliceToken] (by decide) (by decide) rfl).2.2.1 (by decide),
   by decide,
   (session_expiry_is_absolute emptyRedis freshID aliceSession 2
      [.get aliceToken, .wait 1, .get aliceToken, .wait 2, .get aliceToken]
      (by decide) (by decide) rfl).2.2.2 (by decide)⟩

/-- C16: over a working transport, for the token `CreateSession` returned,
`DeleteByID` returns no error and `GetSessionByID` then finds nothing under
the token; a second `DeleteByID` also returns no error and leaves the store
exactly as the first one left it. -/
theorem session_delete_is_idempotent (rc : RedisClient) (newID : UUID) (sess : Session)
    (expire : Int) (hup : rc.faults = []) :
    (SessionRepo.CreateSession newID sess expire rc).1.2 = none ∧
    (SessionRepo.DeleteByID (SessionRepo.CreateSession newID sess expire rc).1.1
      (SessionRepo.CreateSession newID sess expire rc).2).1 = none ∧
    (SessionRepo.GetSessionByID (SessionRepo.CreateSession newID sess expire rc).1.1
      (SessionRepo.DeleteByID (SessionRepo.CreateSession newID sess expire rc).1.1
        (SessionRepo.CreateSession newID sess expire rc).2).2).1 =
      (none, some (.Wrap .RedisNil "SessionRep.GetSessionByID.redisClient.Get")) ∧
    (SessionRepo.DeleteByID (SessionRepo.CreateSession newID sess expire rc).1.1
      (SessionRepo.DeleteByID (SessionRepo.CreateSession newID sess expire rc).1.1
        (SessionRepo.CreateSession newID sess expire rc).2).2).1 = none ∧
    (SessionRepo.DeleteByID (SessionRepo.CreateSession newID sess expire rc).1.1
      (SessionRepo.DeleteByID (SessionRepo.CreateSession newID sess expire rc).1.1
        (SessionRepo.CreateSession newID sess expire rc).2).2).2 =
      (SessionRepo.DeleteByID (SessionRepo.CreateSession newID sess expire rc).1.1
        (SessionRepo.CreateSession newID sess expire rc).2).2 := by
  have hcreate : (SessionRepo.CreateSession newID sess expire rc).1.2 = none := by
    simp [SessionRepo.CreateSession, MarshalSession, RedisClient.Set, RedisClient.run, hup]
  obtain ⟨-, -, hfaults, -⟩ := createSession_ok newID sess expire rc hcreate
  have hup' : (SessionRepo.CreateSession newID sess expire rc).2.faults = [] := by
    rw [hfaults, hup]; rfl
  obtain ⟨h1, -, h3, h4, h5⟩ := deleteByID_general
    (SessionRepo.CreateSession newID sess expire rc).1.1 _ hup'
  exact ⟨hcreate, h1, h3, h4, h5⟩

/-- C16 witness: the session of `alice` is readable after creation, gone after
`DeleteByID`, and a second `DeleteByID` succeeds on the emptied store. -/
theorem session_delete_is_idempotent_witness :
    emptyRedis.faults = [] ∧
    (SessionRepo.GetSessionByID aliceToken
      (SessionRepo.CreateSession freshID aliceSession 2 emptyRedis).2).1.1.isSome = true ∧
    (SessionRepo.DeleteByID aliceToken
      (SessionRepo.CreateSession freshID aliceSession 2 emptyRedis).2).2.entries = [] ∧
    ((SessionRepo.CreateSession freshID aliceSession 2 emptyRedis).1.2 = none ∧
    (SessionRepo.DeleteByID (SessionRepo.CreateSession freshID aliceSession 2 emptyRedis).1.1
      (SessionRepo.CreateSession freshID aliceSession 2 emptyRedis).2).1 = none ∧
    (SessionRepo.GetSessionByID (SessionRepo.CreateSession freshID aliceSession 2 emptyRedis).1.1
      (SessionRepo.DeleteByID (SessionRepo.CreateSession freshID aliceSession 2 emptyRedis).1.1
        (SessionRepo.CreateSession freshID aliceSession 2 emptyRedis).2).2).1 =
      (none, some (.Wrap .RedisNil "SessionRep.GetSessionByID.redisClient.Get")) ∧
    (SessionRepo.DeleteByID (SessionRepo.CreateSession freshID aliceSession 2 emptyRedis).1.1
      (SessionRepo.DeleteByID (SessionRepo.CreateSession freshID aliceSession 2 emptyRedis).1.1
        (SessionRepo.CreateSession freshID aliceSession 2 emptyRedis).2).2).1 = none ∧
    (SessionRepo.DeleteByID (SessionRepo.CreateSession freshID aliceSession 2 emptyRedis).1.1
      (SessionRepo.DeleteByID (SessionRepo.CreateSession freshID aliceSession 2 emptyRedis).1.1
        (SessionRepo.CreateSession freshID aliceSession 2 emptyRedis).2).2).2 =
      (SessionRepo.DeleteByID (SessionRepo.CreateSession freshID aliceSession 2 emptyRedis).1.1
        (SessionRepo.CreateSession freshID aliceSession 2 emptyRedis).2).2) :=
  ⟨rfl, by decide, by decide,
   session_delete_is_idempotent emptyRedis freshID aliceSession 2 rfl⟩

/-- C17: when the count query returns zero, `userRepo.GetUsers` and
`userRepo.FindByName` return without error an envelope with `TotalCount` 0, an
empty non-nil user list and the page and size of the query, and the count
query is the only statement they issue. -/
theorem listing_is_empty_when_count_is_zero {δ : Type} (db : ListingDB δ) (name : String)
    (pq : PaginationQuery) (w : Sys δ) :
    ((db.GetContext .getTotal w.st).1 = .ok 0 →
      (∃ list, (userRepo.GetUsers db pq w).1 = .ret (some list, none) ∧
        list.TotalCount = 0 ∧ list.Users = some [] ∧
        list.Page = pq.Page ∧ list.Size = pq.Size) ∧
      newCalls w (userRepo.GetUsers db pq w).2 = [.Sql .getTotal]) ∧
    ((db.GetContext (.getTotalCount name) w.st).1 = .ok 0 →
      (∃ list, (userRepo.FindByName db name pq w).1 = .ret (some list, none) ∧
        list.TotalCount = 0 ∧ list.Users = some [] ∧
        list.Page = pq.Page ∧ list.Size = pq.Size) ∧
      newCalls w (userRepo.FindByName db name pq w).2 = [.Sql (.getTotalCount name)]) := by
  refine ⟨?_, ?_⟩
  · intro h
    refine ⟨⟨{ TotalCount := 0, TotalPages := GetTotalPages 0 pq.GetSize, Page := pq.GetPage,
               Size := pq.GetSize, HasMore := GetHasMore pq.GetPage 0 pq.GetSize,
               Users := some [] }, ?_, rfl, rfl, rfl, rfl⟩, ?_⟩
    · simp [userRepo.GetUsers, invoke, h]
    · apply newCalls_of_append
      simp [userRepo.GetUsers, invoke, h]
  · intro h
    refine ⟨⟨{ TotalCount := 0, TotalPages := GetTotalPages 0 pq.GetSize, Page := pq.GetPage,
               Size := pq.GetSize, HasMore := GetHasMore pq.GetPage 0 pq.GetSize,
               Users := some [] }, ?_, rfl, rfl, rfl, rfl⟩, ?_⟩
    · simp [userRepo.FindByName, invoke, h]
    · apply newCalls_of_append
      simp [userRepo.FindByName, invoke, h]

/-- C17 witness: a database that counts zero users, asked for page 3 of size
10. -/
theorem listing_is_empty_when_count_is_zero_witness :
    (userRepo.GetUsers (cannedDB 0 [alice]) { Size := 10, Page := 3, OrderBy := "" }
      { st := (), log := [] }).1 =
      .ret (some { TotalCount := 0, TotalPages := GetTotalPages 0 10, Page := 3, Size := 10,
                   HasMore := false, Users := some [] }, none) ∧
    ((∃ list, (userRepo.GetUsers (cannedDB 0 [alice]) { Size := 10, Page := 3, OrderBy := "" }
        { st := (), log := [] }).1 = .ret (some list, none) ∧
        list.TotalCount = 0 ∧ list.Users = some [] ∧
        list.Page = 3 ∧ list.Size = 10) ∧
      newCalls { st := (), log := [] }
        (userRepo.GetUsers (cannedDB 0 [alice]) { Size := 10, Page := 3, OrderBy := "" }
          { st := (), log := [] }).2 = [.Sql .getTotal]) ∧
    ((∃ list, (userRepo.FindByName (cannedDB 0 [alice]) "al"
        { Size := 10, Page := 3, OrderBy := "" } { st := (), log := [] }).1
          = .ret (some list, none) ∧
        list.TotalCount = 0 ∧ list.Users = some [] ∧
        list.Page = 3 ∧ list.Size = 10) ∧
      newCalls { st := (), log := [] }
        (userRepo.FindByName (cannedDB 0 [alice]) "al"
          { Size := 10, Page := 3, OrderBy := "" } { st := (), log := [] }).2
        = [.Sql (.getTotalCount "al")]) :=
  ⟨rfl,
   (listing_is_empty_when_count_is_zero (cannedDB 0 [alice]) "al"
      { Size := 10, Page := 3, OrderBy := "" } { st := (), log := [] }).1 rfl,
   (listing_is_empty_when_count_is_zero (cannedDB 0 [alice]) "al"
      { Size := 10, Page := 3, OrderBy := "" } { st := (), log := [] }).2 rfl⟩

/-- C18: pagination arithmetic of `userRepo.GetUsers` and
`userRepo.FindByName`, for a page size `s > 0`, any page `p` (so every `p ≥ 1`) and a
count `c` the count query returns.  Every envelope returned has `TotalCount = c`,
`TotalPages = ⌈c / s⌉` and `HasMore = (p * s < c)`, and every row query issued
has offset `(p - 1) * s`.  When `c` is not zero and the allocation of `s`
entries is accepted (`s ≤ maxSliceCap`), the row query is issued with that
offset and bound `s`, and when it succeeds the envelope is returned; beyond
`maxSliceCap` the allocation panics, in `GetUsers` before the row query and in
`FindByName` after it.  When the count is zero the envelope has
`TotalPages = 0` and `HasMore = false` for every page and size whose product is
not negative, page 0 and size 0 included. -/
theorem listing_pagination_arithmetic {δ : Type} (db : ListingDB δ) (name orderBy : String)
    (s p : Int) (w : Sys δ) (hs : 0 < s) :
    (∀ c, (db.GetContext .getTotal w.st).1 = .ok c →
      (∀ list err,
        (userRepo.GetUsers db { Size := s, Page := p, OrderBy := orderBy } w).1 =
          .ret (some list, err) →
        list.TotalCount = c ∧ list.TotalPages = ⌈(c : ℚ) / (s : ℚ)⌉ ∧
        list.HasMore = decide (p * s < c)) ∧
      (∀ ob offset limit, Call.Sql (.getUsers ob offset limit) ∈
          newCalls w (userRepo.GetUsers db { Size := s, Page := p, OrderBy := orderBy } w).2 →
        offset = (p - 1) * s) ∧
      (c ≠ 0 → s ≤ maxSliceCap →
        newCalls w (userRepo.GetUsers db { Size := s, Page := p, OrderBy := orderBy } w).2 =
          [.Sql .getTotal, .Sql (.getUsers orderBy ((p - 1) * s) s)] ∧
        ∀ users, (db.SelectContext (.getUsers orderBy ((p - 1) * s) s)
            (db.GetContext .getTotal w.st).2).1 = .ok users →
          (userRepo.GetUsers db { Size := s, Page := p, OrderBy := orderBy } w).1 =
            .ret (some { TotalCount := c, TotalPages := ⌈(c : ℚ) / (s : ℚ)⌉, Page := p,
                         Size := s, HasMore := decide (p * s < c), Users := some users },
                  none)) ∧
      (c ≠ 0 → maxSliceCap < s →
        (userRepo.GetUsers db { Size := s, Page := p, OrderBy := orderBy } w).1 = .panic ∧
        newCalls w (userRepo.GetUsers db { Size := s, Page := p, OrderBy := orderBy } w).2 =
          [.Sql .getTotal])) ∧
    (∀ c, (db.GetContext (.getTotalCount name) w.st).1 = .ok c →
      (∀ list err,
        (userRepo.FindByName db name { Size := s, Page := p, OrderBy := orderBy } w).1 =
          .ret (some list, err) →
        list.TotalCount = c ∧ list.TotalPages = ⌈(c : ℚ) / (s : ℚ)⌉ ∧
        list.HasMore = decide (p * s < c)) ∧
      (∀ n offset size, Call.Sql (.findUsers n offset size) ∈
          newCalls w
            (userRepo.FindByName db name { Size := s, Page := p, OrderBy := orderBy } w).2 →
        offset = (p - 1) * s) ∧
      (c ≠ 0 →
        newCalls w
          (userRepo.FindByName db name { Size := s, Page := p, OrderBy := orderBy } w).2 =
          [.Sql (.getTotalCount name), .Sql (.findUsers name ((p - 1) * s) s)]) ∧
      (c ≠ 0 → s ≤ maxSliceCap →
        ∀ rows users, (db.QueryxContext (.findUsers name ((p - 1) * s) s)
            (db.GetContext (.getTotalCount name) w.st).2).1 = .ok rows →
          scanRows rows.scanned = .ok users → rows.Err = none →
          (userRepo.FindByName db name { Size := s, Page := p, OrderBy := orderBy } w).1 =
            .ret (some { TotalCount := c, TotalPages := ⌈(c : ℚ) / (s : ℚ)⌉, Page := p,
                         Size := s, HasMore := decide (p * s < c), Users := some users },
                  none)) ∧
      (c ≠ 0 → maxSliceCap < s →
        ∀ rows, (db.QueryxContext (.findUsers name ((p - 1) * s) s)
            (db.GetContext (.getTotalCount name) w.st).2).1 = .ok rows →
          (userRepo.FindByName db name { Size := s, Page := p, OrderBy := orderBy } w).1 =
            .panic)) ∧
    (∀ page size : Int, 0 ≤ page * size →
      ((db.GetContext .getTotal w.st).1 = .ok 0 →
        (userRepo.GetUsers db { Size := size, Page := page, OrderBy := orderBy } w).1 =
          .ret (some { TotalCount := 0, TotalPages := 0, Page := page, Size := size,
                       HasMore := false, Users := some [] }, none)) ∧
      ((db.GetContext (.getTotalCount name) w.st).1 = .ok 0 →
        (userRepo.FindByName db name { Size := size, Page := page, OrderBy := orderBy } w).1 =
          .ret (some { TotalCount := 0, TotalPages := 0, Page := page, Size := size,
                       HasMore := false, Users := some [] }, none))) := by
  have hneg : ¬ s < 0 := by omega
  refine ⟨?_, ?_, ?_⟩
  · intro c hc
    have hlog : ∃ t, (userRepo.GetUsers db { Size := s, Page := p, OrderBy := orderBy } w).2.log
        = w.log ++ t ∧ ∀ ob offset limit, Call.Sql (.getUsers ob offset limit) ∈ t →
          offset = (p - 1) * s := by
      simp only [userRepo.GetUsers, invoke, hc, PaginationQuery.GetSize,
        PaginationQuery.GetOffset, PaginationQuery.GetLimit, PaginationQuery.GetOrderBy]
      split
      · exact ⟨_, rfl, by simp⟩
      · split
        · exact ⟨_, rfl, by simp⟩
        · split
          · refine ⟨_, by simp only [List.append_assoc]; rfl, ?_⟩
            intro ob offset limit hmem
            simp at hmem
            exact hmem.2.1
          · refine ⟨_, by simp only [List.append_assoc]; rfl, ?_⟩
            intro ob offset limit hmem
            simp at hmem
            exact hmem.2.1
    refine ⟨?_, ?_, ?_, ?_⟩
    · intro list err hret
      simp only [userRepo.GetUsers, invoke, hc, PaginationQuery.GetSize,
        PaginationQuery.GetOffset, PaginationQuery.GetLimit, PaginationQuery.GetOrderBy,
        PaginationQuery.GetPage, GetTotalPages, GetHasMore] at hret
      split at hret
      · simp at hret
        obtain ⟨h, -⟩ := hret
        subst h
        exact ⟨rfl, rfl, rfl⟩
      · split at hret
        · simp at hret
        · split at hret
          · simp at hret
          · simp at hret
            obtain ⟨h, -⟩ := hret
            subst h
            exact ⟨rfl, rfl, rfl⟩
    · obtain ⟨t, ht, hoff⟩ := hlog
      intro ob offset limit hmem
      rw [newCalls_of_append _ _ t ht] at hmem
      exact hoff ob offset limit hmem
    · intro hne hcap
      have hnp : makeSlicePanics s = false := by
        simp [makeSlicePanics, hneg, not_lt.2 hcap]
      refine ⟨?_, ?_⟩
      · apply newCalls_of_append
        simp only [userRepo.GetUsers, invoke, hc, if_neg hne, PaginationQuery.GetSize,
          hnp, PaginationQuery.GetOffset, PaginationQuery.GetLimit,
          PaginationQuery.GetOrderBy, Bool.false_eq_true, if_false]
        split <;> simp
      · intro users hrows
        simp [userRepo.GetUsers, invoke, hc, hne, PaginationQuery.GetSize, hnp,
          PaginationQuery.GetOffset, PaginationQuery.GetLimit, PaginationQuery.GetOrderBy,
          PaginationQuery.GetPage, hrows, GetTotalPages, GetHasMore]
    · intro hne hcap
      have hpan : makeSlicePanics s = true := by
        simp [makeSlicePanics, hcap]
      refine ⟨?_, ?_⟩
      · simp [userRepo.GetUsers, invoke, hc, hne, PaginationQuery.GetSize, hpan]
      · apply newCalls_of_append
        simp [userRepo.GetUsers, invoke, hc, hne, PaginationQuery.GetSize, hpan]
  · intro c hc
    have hlog : ∃ t,
        (userRepo.FindByName db name { Size := s, Page := p, OrderBy := orderBy } w).2.log
          = w.log ++ t ∧ (∀ n offset size, Call.Sql (.findUsers n offset size) ∈ t →
            offset = (p - 1) * s) ∧
          (c ≠ 0 → t = [.Sql (.getTotalCount name), .Sql (.findUsers name ((p - 1) * s) s)]) := by
      have hfind : ∀ n offset size, Call.Sql (.findUsers n offset size) ∈
          [Call.Sql (.getTotalCount name), .Sql (.findUsers name ((p - 1) * s) s)] →
          offset = (p - 1) * s := by
        intro n offset size hmem
        simp at hmem
        exact hmem.2.1
      simp only [userRepo.FindByName, invoke, hc, PaginationQuery.GetSize,
        PaginationQuery.GetOffset]
      split
      · rename_i h0
        exact ⟨_, rfl, by simp, fun hne => absurd h0 hne⟩
      · split
        · exact ⟨_, by simp only [List.append_assoc]; rfl, hfind, fun _ => rfl⟩
        · split
          · exact ⟨_, by simp only [List.append_assoc]; rfl, hfind, fun _ => rfl⟩
          · split
            · exact ⟨_, by simp only [List.append_assoc]; rfl, hfind, fun _ => rfl⟩
            · split
              · exact ⟨_, by simp only [List.append_assoc]; rfl, hfind, fun _ => rfl⟩
              · exact ⟨_, by simp only [List.append_assoc]; rfl, hfind, fun _ => rfl⟩
    obtain ⟨t, ht, hoff, hall⟩ := hlog
    refine ⟨?_, ?_, ?_, ?_, ?_⟩
    · intro list err hret
      simp only [userRepo.FindByName, invoke, hc, PaginationQuery.GetSize,
        PaginationQuery.GetOffset, PaginationQuery.GetPage, GetTotalPages, GetHasMore] at hret
      split at hret
      · simp at hret
        obtain ⟨h, -⟩ := hret
        subst h
        exact ⟨rfl, rfl, rfl⟩
      · split at hret
        · simp at hret
        · split at hret
          · simp at hret
          · split at hret
            · simp at hret
            · split at hret
              · simp at hret
              · simp at hret
                obtain ⟨h, -⟩ := hret
                subst h
                exact ⟨rfl, rfl, rfl⟩
    · intro n offset size hmem
      rw [newCalls_of_append _ _ t ht] at hmem
      exact hoff n offset size hmem
    · intro hne
      rw [newCalls_of_append _ _ t ht]
      exact hall hne
    · intro hne hcap rows users hrows hscan herr
      have hnp : makeSlicePanics s = false := by
        simp [makeSlicePanics, hneg, not_lt.2 hcap]
      simp [userRepo.FindByName, invoke, hc, hne, PaginationQuery.GetSize, hnp,
        PaginationQuery.GetOffset, PaginationQuery.GetPage, hrows, hscan, herr,
        GetTotalPages, GetHasMore]
    · intro hne hcap rows hrows
      have hpan : makeSlicePanics s = true := by
        simp [makeSlicePanics, hcap]
      simp [userRepo.FindByName, invoke, hc, hne, PaginationQuery.GetSize, hpan,
        PaginationQuery.GetOffset, hrows]
  · intro page size hnn
    have hmore : ¬ page * size < 0 := by omega
    refine ⟨?_, ?_⟩
    · intro hc
      simp [userRepo.GetUsers, invoke, hc, PaginationQuery.GetSize, PaginationQuery.GetPage,
        GetTotalPages, GetHasMore, hmore]
    · intro hc
      simp [userRepo.FindByName, invoke, hc, PaginationQuery.GetSize, PaginationQuery.GetPage,
        GetTotalPages, GetHasMore, hmore]

/-- C18 witness: 25 users, page size 10, page 3 gives three pages and nothing
more, with the row query at offset 20; a count of zero gives no pages and
nothing more on page 0; a page size of `2^45 + 1` makes the allocation panic. -/
theorem listing_pagination_arithmetic_witness :
    GetTotalPages 25 10 = 3 ∧ GetHasMore 3 25 10 = false ∧
    newCalls { st := (), log := [] }
      (userRepo.GetUsers (cannedDB 25 [alice, bob]) { Size := 10, Page := 3, OrderBy := "" }
        { st := (), log := [] }).2 = [.Sql .getTotal, .Sql (.getUsers "" 20 10)] ∧
    (userRepo.GetUsers (cannedDB 25 [alice, bob]) { Size := 10, Page := 3, OrderBy := "" }
      { st := (), log := [] }).1 =
      .ret (some { TotalCount := 25, TotalPages := 3, Page := 3, Size := 10,
                   HasMore := false, Users := some [alice, bob] }, none) ∧
    newCalls { st := (), log := [] }
      (userRepo.FindByName (cannedDB 25 [alice, bob]) "b"
        { Size := 10, Page := 3, OrderBy := "" } { st := (), log := [] }).2 =
      [.Sql (.getTotalCount "b"), .Sql (.findUsers "b" 20 10)] ∧
    (userRepo.FindByName (cannedDB 25 [alice, bob]) "b" { Size := 10, Page := 3, OrderBy := "" }
      { st := (), log := [] }).1 =
      .ret (some { TotalCount := 25, TotalPages := 3, Page := 3, Size := 10,
                   HasMore := false, Users := some [alice, bob] }, none) ∧
    (userRepo.GetUsers (cannedDB 0 []) { Size := 10, Page := 0, OrderBy := "" }
      { st := (), log := [] }).1 =
      .ret (some { TotalCount := 0, TotalPages := 0, Page := 0, Size := 10,
                   HasMore := false, Users := some [] }, none) ∧
    (userRepo.GetUsers (cannedDB 25 [alice, bob])
      { Size := 35184372088833, Page := 1, OrderBy := "" } { st := (), log := [] }).1 =
      .panic ∧
    (userRepo.FindByName (cannedDB 25 [alice, bob]) "b"
      { Size := 35184372088833, Page := 1, OrderBy := "" } { st := (), log := [] }).1 =
      .panic := by
  have hceil : ⌈((25 : ℤ) : ℚ) / ((10 : ℤ) : ℚ)⌉ = 3 := by
    norm_num [Int.ceil_eq_iff]
  have h := listing_pagination_arithmetic (cannedDB 25 [alice, bob]) "b" "" 10 3
    { st := (), log := [] } (by decide)
  have h0 := listing_pagination_arithmetic (cannedDB 0 []) "b" "" 10 3
    { st := (), log := [] } (by decide)
  have hbig := listing_pagination_arithmetic (cannedDB 25 [alice, bob]) "b" "" 35184372088833 1
    { st := (), log := [] } (by decide)
  refine ⟨hceil, by decide, ((h.1 25 rfl).2.2.1 (by decide) (by decide)).1, ?_,
    (h.2.1 25 rfl).2.2.1 (by decide), ?_, (h0.2.2 0 10 (by decide)).1 rfl,
    ((hbig.1 25 rfl).2.2.2 (by decide) (by decide)).1,
    (hbig.2.1 25 rfl).2.2.2.2 (by decide) (by decide)
      { scanned := [.ok alice, .ok bob], Err := none } rfl⟩
  · have h1 := ((h.1 25 rfl).2.2.1 (by decide) (by decide)).2 [alice, bob] rfl
    rw [hceil] at h1
    exact h1
  · have h2 := (h.2.1 25 rfl).2.2.2.1 (by decide) (by decide)
      { scanned := [.ok alice, .ok bob], Err := none } [alice, bob] rfl rfl rfl
    rw [hceil] at h2
    exact h2

/-- C20 counterexample: for metadata whose first `session_id` value is empty,
`getSessionIDFromCtx` fails with the code PermissionDenied, not
Unauthenticated; and for metadata with no `session_id` entry it does not return
at all: `sessionID[0]` indexes the empty list and panics. -/
theorem getSessionIDFromCtx_empty_value_and_missing_entry :
    usersService.getSessionIDFromCtx (some [("session_id", [""])]) =
      .ret ("", some { code := .PermissionDenied, format := "md.Get sessionId: %v",
                       arg := .cause .ErrInvalidSessionId }) ∧
    Code.PermissionDenied ≠ Code.Unauthenticated ∧
    usersService.getSessionIDFromCtx (some [("user-agent", ["grpc-go/1.40.0"])]) = .panic ∧
    usersService.getSessionIDFromCtx (some []) = .panic := by
  refine ⟨by decide, by decide, by decide, by decide⟩

/-- C20 (amended): `getSessionIDFromCtx` on a context with no metadata fails
with the code Unauthenticated; on metadata whose first `session_id` value is
empty it fails with the code PermissionDenied; on metadata whose first
`session_id` value is not empty it returns that value without error. -/
theorem getSessionIDFromCtx_outcomes (md : MD) (first : String) (rest : List String) :
    usersService.getSessionIDFromCtx none =
      .ret ("", some { code := .Unauthenticated, format := "metadata.FromIncomingContext: %v",
                       arg := .cause .ErrNoCtxMetaData }) ∧
    (md.Get "session_id" = "" :: rest →
      usersService.getSessionIDFromCtx (some md) =
        .ret ("", some { code := .PermissionDenied, format := "md.Get sessionId: %v",
                         arg := .cause .ErrInvalidSessionId })) ∧
    (md.Get "session_id" = first :: rest → first ≠ "" →
      usersService.getSessionIDFromCtx (some md) = .ret (first, none)) := by
  refine ⟨rfl, ?_, ?_⟩
  · intro h
    simp [usersService.getSessionIDFromCtx, h]
  · intro h hne
    simp [usersService.getSessionIDFromCtx, h, hne]

/-- C20 witness: metadata carrying the token of `alice`, and metadata carrying
an empty `session_id`. -/
theorem getSessionIDFromCtx_outcomes_witness :
    usersService.getSessionIDFromCtx none =
      .ret ("", some { code := .Unauthenticated, format := "metadata.FromIncomingContext: %v",
                       arg := .cause .ErrNoCtxMetaData }) ∧
    usersService.getSessionIDFromCtx (some [("session_id", ["", "x"])]) =
      .ret ("", some { code := .PermissionDenied, format := "md.Get sessionId: %v",
                       arg := .cause .ErrInvalidSessionId }) ∧
    usersService.getSessionIDFromCtx
        (some [("user-agent", ["grpc-go/1.40.0"]), ("session_id", [aliceToken])]) =
      .ret (aliceToken, none) :=
  ⟨(getSessionIDFromCtx_outcomes [] "" []).1,
   (getSessionIDFromCtx_outcomes [("session_id", ["", "x"])] "" ["x"]).2.1 (by decide),
   (getSessionIDFromCtx_outcomes
      [("user-agent", ["grpc-go/1.40.0"]), ("session_id", [aliceToken])] aliceToken []).2.2
      (by decide) (by decide)⟩

/-- C21: the key sent to the cache for a user identifier is the fixed text
`user:: api-user:: ` followed by the identifier, and distinct identifiers get
distinct keys.  Every cache call made by `GetByID`, `Update`, `UpdateRole` and
`Delete` passes `generateUserKey` of the identifier concerned, and each method
of the cache repository sends its command for `createKey` of the key it is
given. -/
theorem user_cache_key_is_injective {σ : Type} (uc : userUC σ) (user : User)
    (userID a b : UUID) (w : Sys σ) (key : String) (seconds : Int) (value : Option User)
    (rc : RedisClient) :
    userRedisRepo.createKey (userUC.generateUserKey userID.String)
      = "user:: api-user:: " ++ userID.String ∧
    (userRedisRepo.createKey (userUC.generateUserKey a.String)
      = userRedisRepo.createKey (userUC.generateUserKey b.String) → a = b) ∧
    (∀ c ∈ newCalls w (uc.GetByID userID w).2, ∀ k, cacheKeyOf c = some k →
      k = userUC.generateUserKey userID.String) ∧
    (∀ c ∈ newCalls w (uc.Update user w).2, ∀ k, cacheKeyOf c = some k →
      k = userUC.generateUserKey user.UserID.String) ∧
    (∀ c ∈ newCalls w (uc.UpdateRole user w).2, ∀ k, cacheKeyOf c = some k →
      k = userUC.generateUserKey user.UserID.String) ∧
    (∀ c ∈ newCalls w (uc.Delete userID w).2, ∀ k, cacheKeyOf c = some k →
      k = userUC.generateUserKey userID.String) ∧
    (userRedisRepo.GetByIDCtx key rc).2 = (rc.Get (userRedisRepo.createKey key)).2 ∧
    (userRedisRepo.SetUserCtx key seconds value rc).2 =
      (rc.Set (userRedisRepo.createKey key)
        (match value with
         | some u => .json u
         | none => .null) seconds).2 ∧
    (userRedisRepo.DeleteUserCtx key rc).2 = (rc.Del (userRedisRepo.createKey key)).2 := by
  have hform : ∀ id : UUID, userRedisRepo.createKey (userUC.generateUserKey id.String)
      = "user:: api-user:: " ++ id.String := by
    intro id
    apply String.ext
    simp [userRedisRepo.createKey, userUC.generateUserKey, Sprintf, userRedisRepo.basePrefix,
      userUC.basePrefix, String.data_append]
  refine ⟨hform userID, ?_, getByID_cache_keys uc userID w, update_cache_keys uc user w,
    updateRole_cache_keys uc user w, delete_cache_keys uc userID w, ?_, ?_, ?_⟩
  · intro h
    rw [hform a, hform b] at h
    have hs := append_left_cancel _ _ _ h
    cases a
    cases b
    simp only [UUID.String] at hs
    rw [hs]
  · unfold userRedisRepo.GetByIDCtx
    split
    · split <;> rfl
    · split <;> rfl
  · unfold userRedisRepo.SetUserCtx Marshal
    cases value <;> simp only <;> split <;> rfl
  · unfold userRedisRepo.DeleteUserCtx
    split <;> rfl

/-- C21 witness: the key of `alice`, which differs from the key of another
identifier, and the key a read of `alice` over an empty cache writes. -/
theorem user_cache_key_is_injective_witness :
    userRedisRepo.createKey (userUC.generateUserKey alice.UserID.String)
      = "user:: api-user:: 6ba7b810-9dad-11d1-80b4-00c04fd430c8" ∧
    userRedisRepo.createKey (userUC.generateUserKey alice.UserID.String)
      ≠ userRedisRepo.createKey (userUC.generateUserKey strangerID.String) ∧
    (NewUserUC.GetByID alice.UserID aliceSys).2.st.redis.entries.map Entry.key
      = ["user:: api-user:: 6ba7b810-9dad-11d1-80b4-00c04fd430c8"] ∧
    (∀ c ∈ newCalls aliceSys (NewUserUC.GetByID alice.UserID aliceSys).2, ∀ k,
      cacheKeyOf c = some k → k = userUC.generateUserKey alice.UserID.String) :=
  ⟨by decide,
   fun h => absurd ((user_cache_key_is_injective NewUserUC alice alice.UserID alice.UserID
      strangerID aliceSys "" 0 none emptyRedis).2.1 h) (by decide),
   by decide,
   (user_cache_key_is_injective NewUserUC alice alice.UserID alice.UserID
      strangerID aliceSys "" 0 none emptyRedis).2.2.1⟩

/-- C22: evaluation at the failing input.  For a request with first name `Bob`
and password `s3cret-pw`, the record the Register handler passes to
`userUC.Register` carries the email, first name and last name of the request
but `Bob` as its password, and that is the password of the stored row. -/
theorem register_handler_passes_first_name_as_password :
    newCalls aliceServer
      (exampleService.Register (fun _ => none) examplePkg bobRequest aliceServer).2 =
      [.Register { (default : User) with
        Email := "bob@example.com", FirstName := "Bob", LastName := "Builder",
        Password := "Bob", Gender := some "male" }] ∧
    bobRequest.Password = "s3cret-pw" ∧
    ((exampleService.Register (fun _ => none) examplePkg bobRequest aliceServer).2.st.inner =
      [.FindByEmail "bob@example.com",
       .Register { (default : User) with
        Email := "bob@example.com", FirstName := "Bob", LastName := "Builder",
        Password := "Bob", Gender := some "male" }]) ∧
    ((exampleService.Register (fun _ => none) examplePkg bobRequest aliceServer).2.st.env.db.users.map
      (fun row => (row.Email, row.Password))) =
      [("alice@example.com", "hash:wonderland"), ("bob@example.com", "Bob")] ∧
    (∃ created, (exampleService.Register (fun _ => none) examplePkg bobRequest aliceServer).1 =
      .ret (some { User := created }, none) ∧ created.Email = "bob@example.com") := by
  refine ⟨by decide, by decide, by decide, by decide, ⟨_, rfl, by decide⟩⟩
